import Mathlib

/-!
Shallow embedding of the CHIP-8 emulator core (crate `chip_8`):
the opcode splitter (`instruction/opcode.rs`), the instruction decoder
(`instruction/parse.rs`), the execution engine (`instruction/execute.rs`),
the machine memory (`chip_8/memory.rs`) and the machine controller
(`chip_8/system.rs`).

Modelling conventions:
- Machine integers (`u8`, `u16`) are embedded as `Nat` with explicit
  `% 256` / `% 65536` wherever the Rust code wraps; fixed-size arrays
  (`ram`, `v`, `keys`, `vram`) are embedded as total functions, faithful on
  the in-bounds index domain that the Rust types enforce.
- The `Vec<u16>` call stack is used only through `push` / `pop` / `clear`,
  so it is embedded as a `List Nat` with the top of the stack at the head.
- A Rust panic (the `todo!` in the `SubroutineReturn` arm, or an
  out-of-bounds `ram` index) is modelled as `none`; fallible operations
  return the mutated (or, on an early-return error path, unchanged) state
  together with an optional error, mirroring `&mut self -> Result<(), E>`.
- `rand::random::<u8>()` in the `SetVxWithRandom` arm is modelled by an
  extra explicit argument `rnd`.
-/

namespace Chip8Emu

/-- First nibble of a 16-bit opcode word (`(ins & 0xF000) >> 12`). -/
def nibI (w : Nat) : Nat := w / 4096 % 16

/-- Second nibble of a 16-bit opcode word (`(ins & 0x0F00) >> 8`). -/
def nibX (w : Nat) : Nat := w / 256 % 16

/-- Third nibble of a 16-bit opcode word (`(ins & 0x00F0) >> 4`). -/
def nibY (w : Nat) : Nat := w / 16 % 16

/-- Fourth nibble of a 16-bit opcode word (`ins & 0x000F`). -/
def nibN (w : Nat) : Nat := w % 16

/-- Low byte of a 16-bit opcode word (`ins & 0x00FF`). -/
def byteNN (w : Nat) : Nat := w % 256

/-- Low 12-bit word of a 16-bit opcode word (`ins & 0x0FFF`). -/
def addrNNN (w : Nat) : Nat := w % 4096

/-- The instruction variant set of `instruction/parse.rs`, plus the
`SetIWithCharacterAtVx` variant that the exhaustive match of
`instruction/execute.rs` handles. -/
inductive Instruction where
  | displayClear
  | subroutineReturn
  | system (address : Nat)
  | jump (address : Nat)
  | subroutineCall (address : Nat)
  | skipIfVxEqualsValue (vx value : Nat)
  | skipIfVxNotEqualsValue (vx value : Nat)
  | skipIfVxEqualsVy (vx vy : Nat)
  | setVxWithValue (vx value : Nat)
  | addVxValue (vx value : Nat)
  | setVxWithVy (vx vy : Nat)
  | orVxWithVy (vx vy : Nat)
  | andVxWithVy (vx vy : Nat)
  | xorVxWithVy (vx vy : Nat)
  | addVxWithVy (vx vy : Nat)
  | subtractVxWithVy (vx vy : Nat)
  | shift1RightVxWithVy (vx vy : Nat)
  | subtractVyWithVx (vx vy : Nat)
  | shift1LeftVxWithVy (vx vy : Nat)
  | skipIfVxNotEqualsVy (vx vy : Nat)
  | setIWithValue (value : Nat)
  | jumpWithOffset (vx address : Nat)
  | setVxWithRandom (vx value : Nat)
  | displayDraw (vx vy height : Nat)
  | skipIfVxKeyPressed (vx : Nat)
  | skipIfVxKeyNotPressed (vx : Nat)
  | setVxWithDt (vx : Nat)
  | setVxWithNextPressedKeyBlocking (vx : Nat)
  | setDtWithVx (vx : Nat)
  | setStWithVx (vx : Nat)
  | addIWithVx (vx : Nat)
  | setIWithCharacterAtVx (vx : Nat)
deriving DecidableEq, Repr

/-- Decode failure (`ParseError` of `instruction/parse.rs`); it carries the
offending 16-bit opcode word. -/
inductive ParseError where
  | unknownOpcode (opcode : Nat)
deriving DecidableEq, Repr

/-- The decoder `impl TryFrom<Opcode> for Instruction` of
`instruction/parse.rs`, with its match arms translated in source order. -/
def parse (w : Nat) : Except ParseError Instruction :=
  if nibI w = 0x0 ∧ nibX w = 0x0 ∧ nibY w = 0xE ∧ nibN w = 0x0 then
    .ok .displayClear
  else if nibI w = 0x0 ∧ nibX w = 0x0 ∧ nibY w = 0xE ∧ nibN w = 0xE then
    .ok .subroutineReturn
  else if nibI w = 0x0 then .ok (.system (addrNNN w))
  else if nibI w = 0x1 then .ok (.jump (addrNNN w))
  else if nibI w = 0x2 then .ok (.subroutineCall (addrNNN w))
  else if nibI w = 0x3 then .ok (.skipIfVxEqualsValue (nibX w) (byteNN w))
  else if nibI w = 0x4 then .ok (.skipIfVxNotEqualsValue (nibX w) (byteNN w))
  else if nibI w = 0x5 ∧ nibN w = 0x0 then .ok (.skipIfVxEqualsVy (nibX w) (nibY w))
  else if nibI w = 0x6 then .ok (.setVxWithValue (nibX w) (byteNN w))
  else if nibI w = 0x7 then .ok (.addVxValue (nibX w) (byteNN w))
  else if nibI w = 0x8 ∧ nibN w = 0x0 then .ok (.setVxWithVy (nibX w) (nibY w))
  else if nibI w = 0x8 ∧ nibN w = 0x1 then .ok (.orVxWithVy (nibX w) (nibY w))
  else if nibI w = 0x8 ∧ nibN w = 0x2 then .ok (.andVxWithVy (nibX w) (nibY w))
  else if nibI w = 0x8 ∧ nibN w = 0x3 then .ok (.xorVxWithVy (nibX w) (nibY w))
  else if nibI w = 0x8 ∧ nibN w = 0x4 then .ok (.addVxWithVy (nibX w) (nibY w))
  else if nibI w = 0x8 ∧ nibN w = 0x5 then .ok (.subtractVxWithVy (nibX w) (nibY w))
  else if nibI w = 0x8 ∧ nibN w = 0x6 then .ok (.shift1RightVxWithVy (nibX w) (nibY w))
  else if nibI w = 0x8 ∧ nibN w = 0x7 then .ok (.subtractVyWithVx (nibX w) (nibY w))
  else if nibI w = 0x8 ∧ nibN w = 0xE then .ok (.shift1LeftVxWithVy (nibX w) (nibY w))
  else if nibI w = 0x9 ∧ nibN w = 0x0 then .ok (.skipIfVxNotEqualsVy (nibX w) (nibY w))
  else if nibI w = 0xA then .ok (.setIWithValue (addrNNN w))
  else if nibI w = 0xB then .ok (.jumpWithOffset (nibX w) (addrNNN w))
  else if nibI w = 0xC then .ok (.setVxWithRandom (nibX w) (byteNN w))
  else if nibI w = 0xD then .ok (.displayDraw (nibX w) (nibY w) (nibN w))
  else if nibI w = 0xE ∧ nibY w = 0x9 ∧ nibN w = 0xE then .ok (.skipIfVxKeyPressed (nibX w))
  else if nibI w = 0xE ∧ nibY w = 0xA ∧ nibN w = 0x1 then .ok (.skipIfVxKeyNotPressed (nibX w))
  else if nibI w = 0xF ∧ nibY w = 0x0 ∧ nibN w = 0x7 then .ok (.setVxWithDt (nibX w))
  else if nibI w = 0xF ∧ nibY w = 0x0 ∧ nibN w = 0xA then
    .ok (.setVxWithNextPressedKeyBlocking (nibX w))
  else if nibI w = 0xF ∧ nibY w = 0x1 ∧ nibN w = 0x5 then .ok (.setDtWithVx (nibX w))
  else if nibI w = 0xF ∧ nibY w = 0x1 ∧ nibN w = 0x8 then .ok (.setStWithVx (nibX w))
  else if nibI w = 0xF ∧ nibY w = 0x1 ∧ nibN w = 0xE then .ok (.addIWithVx (nibX w))
  else .error (.unknownOpcode w)

/-- A 16-bit word matches one of the fixed bit-pattern decode rules of the
match table in `instruction/parse.rs` (every arm except the `_` catch-all). -/
def matchesRule (w : Nat) : Prop :=
  (nibI w = 0x0 ∧ nibX w = 0x0 ∧ nibY w = 0xE ∧ nibN w = 0x0) ∨
  (nibI w = 0x0 ∧ nibX w = 0x0 ∧ nibY w = 0xE ∧ nibN w = 0xE) ∨
  nibI w = 0x0 ∨ nibI w = 0x1 ∨ nibI w = 0x2 ∨ nibI w = 0x3 ∨ nibI w = 0x4 ∨
  (nibI w = 0x5 ∧ nibN w = 0x0) ∨ nibI w = 0x6 ∨ nibI w = 0x7 ∨
  (nibI w = 0x8 ∧ nibN w = 0x0) ∨ (nibI w = 0x8 ∧ nibN w = 0x1) ∨
  (nibI w = 0x8 ∧ nibN w = 0x2) ∨ (nibI w = 0x8 ∧ nibN w = 0x3) ∨
  (nibI w = 0x8 ∧ nibN w = 0x4) ∨ (nibI w = 0x8 ∧ nibN w = 0x5) ∨
  (nibI w = 0x8 ∧ nibN w = 0x6) ∨ (nibI w = 0x8 ∧ nibN w = 0x7) ∨
  (nibI w = 0x8 ∧ nibN w = 0xE) ∨ (nibI w = 0x9 ∧ nibN w = 0x0) ∨
  nibI w = 0xA ∨ nibI w = 0xB ∨ nibI w = 0xC ∨ nibI w = 0xD ∨
  (nibI w = 0xE ∧ nibY w = 0x9 ∧ nibN w = 0xE) ∨
  (nibI w = 0xE ∧ nibY w = 0xA ∧ nibN w = 0x1) ∨
  (nibI w = 0xF ∧ nibY w = 0x0 ∧ nibN w = 0x7) ∨
  (nibI w = 0xF ∧ nibY w = 0x0 ∧ nibN w = 0xA) ∨
  (nibI w = 0xF ∧ nibY w = 0x1 ∧ nibN w = 0x5) ∨
  (nibI w = 0xF ∧ nibY w = 0x1 ∧ nibN w = 0x8) ∨
  (nibI w = 0xF ∧ nibY w = 0x1 ∧ nibN w = 0xE)

instance (w : Nat) : Decidable (matchesRule w) := by
  unfold matchesRule; infer_instance

/-- The fixed 80-byte font table `FONT` of `chip_8/memory.rs`, flattened
row-major: sixteen characters of five bytes each. -/
def FONT : List Nat :=
  [0xF0, 0x90, 0x90, 0x90, 0xF0,
   0x20, 0x60, 0x20, 0x20, 0x70,
   0xF0, 0x10, 0xF0, 0x80, 0xF0,
   0xF0, 0x10, 0xF0, 0x10, 0xF0,
   0x90, 0x90, 0xF0, 0x10, 0x10,
   0xF0, 0x80, 0xF0, 0x10, 0xF0,
   0xF0, 0x80, 0xF0, 0x90, 0xF0,
   0xF0, 0x10, 0x20, 0x40, 0x40,
   0xF0, 0x90, 0xF0, 0x90, 0xF0,
   0xF0, 0x90, 0xF0, 0x10, 0xF0,
   0xF0, 0x90, 0xF0, 0x90, 0x90,
   0xE0, 0x90, 0xE0, 0x90, 0xE0,
   0xF0, 0x80, 0x80, 0x80, 0xF0,
   0xE0, 0x90, 0x90, 0x90, 0xE0,
   0xF0, 0x80, 0xF0, 0x80, 0xF0,
   0xF0, 0x80, 0xF0, 0x80, 0x80]

/-- The machine memory (`struct Memory` of `chip_8/memory.rs`). `ram`
holds 4096 bytes, `vram` is indexed `[y][x]` over 32 rows of 64 columns,
`v` holds the 16 general-purpose byte registers, `keys` the 16 key flags. -/
structure Memory where
  ram : Nat → Nat
  vram : Nat → Nat → Bool
  stack : List Nat
  pc : Nat
  dt : Nat
  st : Nat
  i : Nat
  v : Nat → Nat
  keys : Nat → Bool

/-- Memory::SIZE_RAM. -/
def Memory.SIZE_RAM : Nat := 4 * 1024

/-- Memory::SIZE_DISPLAY_WIDTH. -/
def Memory.SIZE_DISPLAY_WIDTH : Nat := 64

/-- Memory::SIZE_DISPLAY_HEIGHT. -/
def Memory.SIZE_DISPLAY_HEIGHT : Nat := 32

/-- Memory::INDEX_PROGRAM_START. -/
def Memory.INDEX_PROGRAM_START : Nat := 0x200

/-- Memory::INDEX_FONT_START. -/
def Memory.INDEX_FONT_START : Nat := 0x50

/-- Memory::INDEX_FLAG_REGISTER (`SIZE_REGISTERS - 1`, i.e. `0xF`). -/
def Memory.INDEX_FLAG_REGISTER : Nat := 15

/-- Write one register: `memory.v[j] = val`. -/
def Memory.setV (m : Memory) (j val : Nat) : Memory :=
  { m with v := Function.update m.v j val }

/-- Write one framebuffer pixel: `memory.vram[y][x] = b`. -/
def Memory.setPixel (m : Memory) (y x : Nat) (b : Bool) : Memory :=
  { m with vram := Function.update m.vram y (Function.update (m.vram y) x b) }

/-- Write one key flag: `memory.keys[k] = b`. -/
def Memory.setKey (m : Memory) (k : Nat) (b : Bool) : Memory :=
  { m with keys := Function.update m.keys k b }

/-- Memory::increment_pc: `self.pc += 2` on a `u16`. -/
def Memory.incrementPc (m : Memory) : Memory :=
  { m with pc := (m.pc + 2) % 65536 }

/-- Memory::advance_timer: decrement each timer if it is above zero. -/
def Memory.advanceTimer (m : Memory) : Memory :=
  { m with dt := if m.dt > 0 then m.dt - 1 else m.dt,
           st := if m.st > 0 then m.st - 1 else m.st }

/-- Memory::clear_vram: reset every pixel to false. -/
def Memory.clearVram (m : Memory) : Memory :=
  { m with vram := fun _ _ => false }

/-- Copy a byte slice into a byte store starting at `start`
(`copy_from_slice` on a subrange). -/
def writeBytes (f : Nat → Nat) (start : Nat) : List Nat → Nat → Nat
  | [] => f
  | b :: rest => writeBytes (Function.update f start b) (start + 1) rest

/-- Memory::clear_memory: zero all RAM, copy the font table to
`INDEX_FONT_START`, clear the framebuffer, clear the stack, zero all
registers, reset `pc` to `INDEX_PROGRAM_START`, zero both timers and the
index register, clear all key flags. Every field of the result is
overwritten, so the result does not depend on the input. -/
def Memory.clearMemory (_m : Memory) : Memory :=
  { ram := writeBytes (fun _ => 0) Memory.INDEX_FONT_START FONT
    vram := fun _ _ => false
    stack := []
    pc := Memory.INDEX_PROGRAM_START
    dt := 0
    st := 0
    i := 0
    v := fun _ => 0
    keys := fun _ => false }

/-- Memory::default: the zero-initialised record passed through
`clear_memory`. -/
def Memory.default : Memory :=
  Memory.clearMemory
    { ram := fun _ => 0
      vram := fun _ _ => false
      stack := []
      pc := Memory.INDEX_PROGRAM_START
      dt := 0
      st := 0
      i := 0
      v := fun _ => 0
      keys := fun _ => false }

/-- Memory::load: `clear_memory` then copy the ROM into RAM starting at
`INDEX_PROGRAM_START`. -/
def Memory.load (m : Memory) (rom : List Nat) : Memory :=
  let m := m.clearMemory
  { m with ram := writeBytes m.ram Memory.INDEX_PROGRAM_START rom }

/-- The compatibility configuration (`struct Config` of
`chip_8/config.rs`). -/
structure Config where
  shift_ignores_vy : Bool
  jump_reads_from_vx : Bool
  add_to_index_stores_overflow : Bool
  store_load_modifies_i : Bool
deriving DecidableEq, Repr

/-- Config::default. -/
def Config.default : Config :=
  { shift_ignores_vy := true
    jump_reads_from_vx := false
    add_to_index_stores_overflow := true
    store_load_modifies_i := false }

/-- The controller-level execution state (`enum State` of
`chip_8/system.rs`). -/
inductive MState where
  | ready
  | waitingForKey (vx : Nat)
deriving DecidableEq, Repr

/-- The emulator facade (`struct Chip8` of `chip_8/system.rs`). -/
structure Chip8 where
  config : Config
  memory : Memory
  state : MState

/-- Chip8::new. -/
def Chip8.new (config : Config) : Chip8 :=
  { config := config, memory := Memory.default, state := .ready }

/-- Chip8::load. -/
def Chip8.load (c : Chip8) (rom : List Nat) : Chip8 :=
  { c with memory := c.memory.load rom }

/-- The execution failure taxonomy (`enum ExecuteError` of
`instruction/execute.rs`). -/
inductive ExecuteError where
  | unsupportedInstruction (instruction : Instruction)
  | invalidKey (key : Nat)
deriving DecidableEq, Repr

/-- The combined error type (`enum InstructionError` of
`chip_8/system.rs`). -/
inductive InstructionError where
  | parseError (e : ParseError)
  | executeError (e : ExecuteError)
deriving DecidableEq, Repr

/-- The inner `'pixels` loop of the `DisplayDraw` arm: scan the sprite-row
bits `p, p+1, ...` for `n` more iterations (the loop runs `p = 0..7`, so
it is entered with `p = 0`, `n = 8`), XOR-drawing set bits at
`(x + p, yr)`. Returns the updated memory and whether the loop executed
`break 'rows` (a set pixel at an in-width column of a row at or past the
bottom edge). -/
def Memory.drawRow (m : Memory) (x yr row p : Nat) : Nat → Memory × Bool
  | 0 => (m, false)
  | n + 1 =>
    if row.testBit (7 - p) then
      if x + p ≥ Memory.SIZE_DISPLAY_WIDTH then (m, false)
      else if yr ≥ Memory.SIZE_DISPLAY_HEIGHT then (m, true)
      else
        let b := ! m.vram yr (x + p)
        let m1 := m.setPixel yr (x + p) b
        let m2 := if b = false then m1.setV Memory.INDEX_FLAG_REGISTER 1 else m1
        m2.drawRow x yr row (p + 1) n
    else m.drawRow x yr row (p + 1) n

/-- The outer `'rows` loop of the `DisplayDraw` arm: for each sprite row
`r, r + 1, ...` over `n` more iterations (the loop runs `r = 0..height-1`,
so it is entered with `r = 0`, `n = height`), read the row byte at
`ram[i + r]` (an out-of-bounds index is a panic, modelled `none`; the
`u16` sum wraps) and draw it; stop early on `break 'rows`. -/
def Memory.drawRows (m : Memory) (x y r : Nat) : Nat → Option Memory
  | 0 => some m
  | n + 1 =>
    let addr := (m.i + r) % 65536
    if addr < Memory.SIZE_RAM then
      match m.drawRow x (y + r) (m.ram addr) 0 8 with
      | (m1, brk) =>
        if brk then some m1 else m1.drawRows x y (r + 1) n
    else none

/-- The execution engine (`ExecuteInstruction::execute` of
`instruction/execute.rs`), one arm per instruction variant, translated in
source order. The result is `none` on a panic (the empty-stack `todo!`
or an out-of-bounds RAM read); otherwise it carries the resulting machine
and an optional `ExecuteError` (the error arms return early, before any
mutation). `rnd` stands for the byte drawn by `rand::random::<u8>()`. -/
def Chip8.execute (c : Chip8) (rnd : Nat) (ins : Instruction) :
    Option (Chip8 × Option ExecuteError) :=
  let m := c.memory
  match ins with
  | .displayClear => some ({ c with memory := m.clearVram }, none)
  | .subroutineReturn =>
    match m.stack with
    | pc1 :: rest =>
      some ({ c with memory := { m with pc := pc1, stack := rest } }, none)
    | [] => none
  | .system _ => some (c, some (.unsupportedInstruction ins))
  | .jump address => some ({ c with memory := { m with pc := address } }, none)
  | .subroutineCall address =>
    some ({ c with memory := { m with stack := m.pc :: m.stack, pc := address } }, none)
  | .skipIfVxEqualsValue vx value =>
    some ({ c with memory := if m.v vx = value then m.incrementPc else m }, none)
  | .skipIfVxNotEqualsValue vx value =>
    some ({ c with memory := if m.v vx ≠ value then m.incrementPc else m }, none)
  | .skipIfVxEqualsVy vx vy =>
    some ({ c with memory := if m.v vx = m.v vy then m.incrementPc else m }, none)
  | .setVxWithValue vx value => some ({ c with memory := m.setV vx value }, none)
  | .addVxValue vx value =>
    some ({ c with memory := m.setV vx ((m.v vx + value) % 256) }, none)
  | .setVxWithVy vx vy => some ({ c with memory := m.setV vx (m.v vy) }, none)
  | .orVxWithVy vx vy =>
    some ({ c with memory := m.setV vx (Nat.lor (m.v vx) (m.v vy)) }, none)
  | .andVxWithVy vx vy =>
    some ({ c with memory := m.setV vx (Nat.land (m.v vx) (m.v vy)) }, none)
  | .xorVxWithVy vx vy =>
    some ({ c with memory := m.setV vx (Nat.xor (m.v vx) (m.v vy)) }, none)
  | .addVxWithVy vx vy =>
    let result := (m.v vx + m.v vy) % 256
    let overflow : Nat := if m.v vx + m.v vy > 255 then 1 else 0
    some ({ c with memory := (m.setV vx result).setV Memory.INDEX_FLAG_REGISTER overflow },
      none)
  | .subtractVxWithVy vx vy =>
    let result := (m.v vx + 256 - m.v vy) % 256
    let noBorrow : Nat := if m.v vx < m.v vy then 0 else 1
    some ({ c with memory := (m.setV vx result).setV Memory.INDEX_FLAG_REGISTER noBorrow },
      none)
  | .shift1RightVxWithVy vx vy =>
    let m1 := if c.config.shift_ignores_vy then m else m.setV vx (m.v vy)
    let discarded := m1.v vx % 2
    some ({ c with memory :=
      (m1.setV vx (m1.v vx / 2)).setV Memory.INDEX_FLAG_REGISTER discarded }, none)
  | .subtractVyWithVx vx vy =>
    let result := (m.v vy + 256 - m.v vx) % 256
    let noBorrow : Nat := if m.v vy < m.v vx then 0 else 1
    some ({ c with memory := (m.setV vx result).setV Memory.INDEX_FLAG_REGISTER noBorrow },
      none)
  | .shift1LeftVxWithVy vx vy =>
    let m1 := if c.config.shift_ignores_vy then m else m.setV vx (m.v vy)
    let discarded := m1.v vx / 128 % 2
    some ({ c with memory :=
      (m1.setV vx (m1.v vx * 2 % 256)).setV Memory.INDEX_FLAG_REGISTER discarded }, none)
  | .skipIfVxNotEqualsVy vx vy =>
    some ({ c with memory := if m.v vx ≠ m.v vy then m.incrementPc else m }, none)
  | .setIWithValue value => some ({ c with memory := { m with i := value } }, none)
  | .jumpWithOffset vx address =>
    let offset := m.v (if c.config.jump_reads_from_vx then vx else 0)
    some ({ c with memory := { m with pc := (address + offset) % 65536 } }, none)
  | .setVxWithRandom vx value =>
    some ({ c with memory := m.setV vx (Nat.land (rnd % 256) value) }, none)
  | .displayDraw vx vy height =>
    let x := m.v vx % Memory.SIZE_DISPLAY_WIDTH
    let y := m.v vy % Memory.SIZE_DISPLAY_HEIGHT
    let m1 := m.setV Memory.INDEX_FLAG_REGISTER 0
    match m1.drawRows x y 0 height with
    | some m2 => some ({ c with memory := m2 }, none)
    | none => none
  | .skipIfVxKeyPressed vx =>
    if m.v vx < 16 then
      some ({ c with memory := if m.keys (m.v vx) then m.incrementPc else m }, none)
    else some (c, some (.invalidKey (m.v vx)))
  | .skipIfVxKeyNotPressed vx =>
    if m.v vx < 16 then
      some ({ c with memory := if ! m.keys (m.v vx) then m.incrementPc else m }, none)
    else some (c, some (.invalidKey (m.v vx)))
  | .setVxWithDt vx => some ({ c with memory := m.setV vx m.dt }, none)
  | .setVxWithNextPressedKeyBlocking vx => some ({ c with state := .waitingForKey vx }, none)
  | .setDtWithVx vx => some ({ c with memory := { m with dt := m.v vx } }, none)
  | .setStWithVx vx => some ({ c with memory := { m with st := m.v vx } }, none)
  | .addIWithVx vx =>
    let m1 := { m with i := (m.i + m.v vx) % 65536 }
    let m2 :=
      if c.config.add_to_index_stores_overflow ∧ m1.i ≥ 0x1000 then
        m1.setV Memory.INDEX_FLAG_REGISTER 1
      else m1
    some ({ c with memory := m2 }, none)
  | .setIWithCharacterAtVx vx =>
    some ({ c with memory := { m with i := Memory.INDEX_FONT_START + m.v vx * 5 } }, none)

/-- Chip8::advance_instruction: if the controller is `Ready` and the delay
timer is zero, fetch the big-endian word at `pc`, advance `pc` by 2, then
decode and execute; otherwise do nothing and succeed. A fetch from an
out-of-bounds RAM index is a panic (`none`). The result carries the
machine after the call together with the propagated error, if any. -/
def Chip8.advanceInstruction (c : Chip8) (rnd : Nat) :
    Option (Chip8 × Option InstructionError) :=
  if c.state = .ready ∧ c.memory.dt = 0 then
    if c.memory.pc + 1 < Memory.SIZE_RAM then
      let opcode := c.memory.ram c.memory.pc * 256 + c.memory.ram (c.memory.pc + 1)
      let c1 : Chip8 := { c with memory := c.memory.incrementPc }
      match parse opcode with
      | .error e => some (c1, some (.parseError e))
      | .ok ins =>
        match c1.execute rnd ins with
        | none => none
        | some (c2, some e) => some (c2, some (.executeError e))
        | some (c2, none) => some (c2, none)
    else none
  else some (c, none)

/-- Chip8::advance_timer. -/
def Chip8.advanceTimer (c : Chip8) : Chip8 :=
  { c with memory := c.memory.advanceTimer }

/-- Chip8::press_key: reject a key index above `0xF` with `InvalidKey`
before any mutation, otherwise set the key flag. -/
def Chip8.pressKey (c : Chip8) (key : Nat) : Chip8 × Option InstructionError :=
  if key > 0xF then (c, some (.executeError (.invalidKey key)))
  else ({ c with memory := c.memory.setKey key true }, none)

/-- Chip8::unpress_key: reject a key index above `0xF` with `InvalidKey`
before any mutation; otherwise clear the key flag and, if the controller
was waiting for a key, store the key in the waited-on register and return
to `Ready`. -/
def Chip8.unpressKey (c : Chip8) (key : Nat) : Chip8 × Option InstructionError :=
  if key > 0xF then (c, some (.executeError (.invalidKey key)))
  else
    let c1 : Chip8 := { c with memory := c.memory.setKey key false }
    match c1.state with
    | .waitingForKey vx =>
      ({ c1 with memory := c1.memory.setV vx key, state := .ready }, none)
    | .ready => (c1, none)

/-! Helper lemmas shared by the claim theorems. -/

/-- Two chained register writes, the flag register last, described
pointwise. -/
theorem update2_eq (v : Nat → Nat) (vx a b : Nat) :
    Function.update (Function.update v vx a) 15 b =
      fun j => if j = 15 then b else if j = vx then a else v j := by
  funext j
  simp [Function.update_apply]

/-- A register write at `vx` followed by an overwrite at `vx` and then the
flag register, described pointwise. -/
theorem update3_eq (v : Nat → Nat) (vx a a' b : Nat) :
    Function.update (Function.update (Function.update v vx a) vx a') 15 b =
      fun j => if j = 15 then b else if j = vx then a' else v j := by
  funext j
  simp [Function.update_apply]

/-- Pointwise description of copying a byte list into a byte store. -/
theorem writeBytes_apply (l : List Nat) (f : Nat → Nat) (s j : Nat) :
    writeBytes f s l j =
      if s ≤ j ∧ j < s + l.length then l.getD (j - s) 0 else f j := by
  induction l generalizing f s with
  | nil =>
    rw [writeBytes, if_neg (by simp only [List.length_nil]; omega)]
  | cons b rest ih =>
    rw [writeBytes, ih]
    by_cases he : j = s
    · subst he
      rw [if_neg (by omega), if_pos (by simp only [List.length_cons]; omega)]
      simp [Function.update_apply]
    · by_cases h1 : s + 1 ≤ j ∧ j < s + 1 + rest.length
      · rw [if_pos h1, if_pos (by simp only [List.length_cons]; omega)]
        have hsub : j - s = (j - (s + 1)) + 1 := by omega
        rw [hsub, List.getD_cons_succ]
      · rw [if_neg h1, if_neg (by simp only [List.length_cons]; omega)]
        simp [Function.update_apply, he]

/-- C2: for every machine state and register indices `vx`, `vy`,
`AddVxWithVy` stores the 8-bit wrapped sum in `v[vx]` and then writes the
carry (1 iff the true sum exceeds 255) to the flag register;
`SubtractVxWithVy` stores `(v[vx] - v[vy]) mod 256` in `v[vx]` and writes
the logical negation of underflow (1 = no borrow) to the flag register;
`SubtractVyWithVx` mirrors it with operands swapped, storing into `v[vx]`.
The final conjunct identifies the stored difference with integer
subtraction mod 256 on the byte domain. -/
theorem execute_arith_carry_borrow (c : Chip8) (rnd vx vy : Nat)
    (hvx : vx < 16) (hvy : vy < 16) :
    (c.execute rnd (.addVxWithVy vx vy) =
      some ({ c with memory := { c.memory with v := (fun j =>
        if j = 15 then (if 255 < c.memory.v vx + c.memory.v vy then 1 else 0)
        else if j = vx then (c.memory.v vx + c.memory.v vy) % 256
        else c.memory.v j) } }, none)) ∧
    (c.execute rnd (.subtractVxWithVy vx vy) =
      some ({ c with memory := { c.memory with v := (fun j =>
        if j = 15 then (if c.memory.v vx < c.memory.v vy then 0 else 1)
        else if j = vx then (c.memory.v vx + 256 - c.memory.v vy) % 256
        else c.memory.v j) } }, none)) ∧
    (c.execute rnd (.subtractVyWithVx vx vy) =
      some ({ c with memory := { c.memory with v := (fun j =>
        if j = 15 then (if c.memory.v vy < c.memory.v vx then 0 else 1)
        else if j = vx then (c.memory.v vy + 256 - c.memory.v vx) % 256
        else c.memory.v j) } }, none)) ∧
    (c.memory.v vx < 256 → c.memory.v vy < 256 →
      (((c.memory.v vx + 256 - c.memory.v vy) % 256 : Nat) : Int) =
        ((c.memory.v vx : Int) - (c.memory.v vy : Int)) % 256) := by
  refine ⟨?_, ?_, ?_, ?_⟩
  · simp only [Chip8.execute, Memory.setV, Memory.INDEX_FLAG_REGISTER, update2_eq]
  · simp only [Chip8.execute, Memory.setV, Memory.INDEX_FLAG_REGISTER, update2_eq]
  · simp only [Chip8.execute, Memory.setV, Memory.INDEX_FLAG_REGISTER, update2_eq]
  · intro h1 h2
    omega

/-- The concrete state of the C2 test vector: `registers[1] = 15`,
`registers[2] = 17` on an otherwise fresh machine. -/
def c2State : Chip8 :=
  { Chip8.new Config.default with memory := (Memory.default.setV 1 15).setV 2 17 }

/-- C2 witness: on `registers[1]=15`, `registers[2]=17`,
`SubtractVxWithVy{vx=1, vy=2}` stores 254 and clears the no-borrow
flag. -/
theorem execute_arith_carry_borrow_witness :
    (1 : Nat) < 16 ∧ (2 : Nat) < 16 ∧
    c2State.execute 0 (.subtractVxWithVy 1 2) =
      some ({ c2State with memory := { c2State.memory with v := (fun j =>
        if j = 15 then (if c2State.memory.v 1 < c2State.memory.v 2 then 0 else 1)
        else if j = 1 then (c2State.memory.v 1 + 256 - c2State.memory.v 2) % 256
        else c2State.memory.v j) } }, none) ∧
    c2State.memory.v 1 = 15 ∧ c2State.memory.v 2 = 17 ∧
    (c2State.memory.v 1 + 256 - c2State.memory.v 2) % 256 = 254 ∧
    (if c2State.memory.v 1 < c2State.memory.v 2 then (0 : Nat) else 1) = 0 :=
  ⟨by decide, by decide,
   (execute_arith_carry_borrow c2State 0 1 2 (by decide) (by decide)).2.1,
   by decide, by decide, by decide, by decide⟩

/-- C4: for every machine state, register indices `vx`, `vy` and both
values of `shift_ignores_vy`, the shift instructions shift the source
byte (which is `v[vy]` first copied into `v[vx]` when the toggle is
false, and `v[vx]` in place, `v[vy]` ignored, when it is true) by one
bit and store the shifted-out bit (low bit for right, high bit for left)
in the flag register. -/
theorem execute_shift (c : Chip8) (rnd vx vy : Nat)
    (hvx : vx < 16) (hvy : vy < 16)
    (hx : c.memory.v vx < 256) (hy : c.memory.v vy < 256) :
    (c.execute rnd (.shift1RightVxWithVy vx vy) =
      (let src := if c.config.shift_ignores_vy then c.memory.v vx else c.memory.v vy
       some ({ c with memory := { c.memory with v := (fun j =>
         if j = 15 then src % 2
         else if j = vx then src / 2
         else c.memory.v j) } }, none))) ∧
    (c.execute rnd (.shift1LeftVxWithVy vx vy) =
      (let src := if c.config.shift_ignores_vy then c.memory.v vx else c.memory.v vy
       some ({ c with memory := { c.memory with v := (fun j =>
         if j = 15 then src / 128 % 2
         else if j = vx then src * 2 % 256
         else c.memory.v j) } }, none))) := by
  cases hcfg : c.config.shift_ignores_vy with
  | true =>
    constructor
    · simp only [Chip8.execute, Memory.setV, Memory.INDEX_FLAG_REGISTER, hcfg,
        Bool.false_eq_true, if_true, if_false, update2_eq]
    · simp only [Chip8.execute, Memory.setV, Memory.INDEX_FLAG_REGISTER, hcfg,
        Bool.false_eq_true, if_true, if_false, update2_eq]
  | false =>
    constructor
    · simp only [Chip8.execute, Memory.setV, Memory.INDEX_FLAG_REGISTER, hcfg,
        Bool.false_eq_true, if_true, if_false, Function.update_same, update3_eq]
    · simp only [Chip8.execute, Memory.setV, Memory.INDEX_FLAG_REGISTER, hcfg,
        Bool.false_eq_true, if_true, if_false, Function.update_same, update3_eq]

/-- The concrete state of the C4 test vector: `shift_ignores_vy = false`
and `registers[2] = 0b00110000`. -/
def c4State : Chip8 :=
  { Chip8.new { Config.default with shift_ignores_vy := false } with
    memory := Memory.default.setV 2 0b00110000 }

/-- C4 witness: with `shift_ignores_vy = false`,
`Shift1RightVxWithVy{vx=1, vy=2}` on `registers[2] = 0b00110000` stores
`0b00011000` in `registers[1]` and 0 in the flag register. -/
theorem execute_shift_witness :
    (1 : Nat) < 16 ∧ (2 : Nat) < 16 ∧
    c4State.memory.v 1 < 256 ∧ c4State.memory.v 2 < 256 ∧
    c4State.execute 0 (.shift1RightVxWithVy 1 2) =
      (let src := if c4State.config.shift_ignores_vy then c4State.memory.v 1
        else c4State.memory.v 2
       some ({ c4State with memory := { c4State.memory with v := (fun j =>
         if j = 15 then src % 2
         else if j = 1 then src / 2
         else c4State.memory.v j) } }, none)) ∧
    (if c4State.config.shift_ignores_vy then c4State.memory.v 1
      else c4State.memory.v 2) / 2 = 0b00011000 ∧
    (if c4State.config.shift_ignores_vy then c4State.memory.v 1
      else c4State.memory.v 2) % 2 = 0 :=
  ⟨by decide, by decide, by decide, by decide,
   (execute_shift c4State 0 1 2 (by decide) (by decide) (by decide) (by decide)).1,
   by decide, by decide⟩

/-- C10: for every machine state, register index `vx` and both values of
`add_to_index_stores_overflow`, `AddIWithVx` adds `v[vx]` to the index
register; if the result reaches `0x1000` the flag register is set to 1
exactly when the toggle is true, and in every other case the registers
are untouched. -/
theorem execute_addIWithVx (c : Chip8) (rnd vx : Nat) (hvx : vx < 16)
    (hi : c.memory.i + c.memory.v vx < 65536) :
    c.execute rnd (.addIWithVx vx) =
      some ({ c with memory :=
        if c.config.add_to_index_stores_overflow ∧ 0x1000 ≤ c.memory.i + c.memory.v vx then
          { c.memory with i := c.memory.i + c.memory.v vx,
                          v := Function.update c.memory.v 15 1 }
        else { c.memory with i := c.memory.i + c.memory.v vx } }, none) := by
  simp only [Chip8.execute, Memory.setV, Memory.INDEX_FLAG_REGISTER,
    Nat.mod_eq_of_lt hi]

/-- The concrete state of the C10 witness: `i = 0xFF8`,
`registers[1] = 0x10`, `add_to_index_stores_overflow = true`. -/
def c10State : Chip8 :=
  { Chip8.new Config.default with
    memory := { Memory.default.setV 1 0x10 with i := 0xFF8 } }

/-- C10 witness: adding `0x10` to `i = 0xFF8` crosses `0x1000`, so with
the toggle on the flag register becomes 1 and `i` becomes `0x1008`; with
the toggle off the registers stay untouched. -/
theorem execute_addIWithVx_witness :
    (1 : Nat) < 16 ∧ c10State.memory.i + c10State.memory.v 1 < 65536 ∧
    c10State.execute 0 (.addIWithVx 1) =
      some ({ c10State with memory :=
        if c10State.config.add_to_index_stores_overflow ∧
            0x1000 ≤ c10State.memory.i + c10State.memory.v 1 then
          { c10State.memory with i := c10State.memory.i + c10State.memory.v 1,
                                 v := Function.update c10State.memory.v 15 1 }
        else { c10State.memory with i := c10State.memory.i + c10State.memory.v 1 } },
        none) ∧
    c10State.memory.i + c10State.memory.v 1 = 0x1008 ∧
    (c10State.config.add_to_index_stores_overflow ∧
      0x1000 ≤ c10State.memory.i + c10State.memory.v 1) ∧
    (({ c10State with
        config := { c10State.config with add_to_index_stores_overflow := false } }
          : Chip8).execute 0 (.addIWithVx 1)).map
      (fun p => (p.1.memory.i, p.1.memory.v 15, p.2)) = some (0x1008, 0, none) :=
  ⟨by decide, by decide,
   execute_addIWithVx c10State 0 1 (by decide) (by decide),
   by decide, by decide, by decide⟩

/-- C8 (implicit): executing `SubroutineReturn` on an empty call stack
hits the `todo!` panic (modelled `none`), returning neither success nor
an `ExecuteError`; with a non-empty stack it always succeeds, popping the
stack into the program counter, so the panic branch is unreachable
exactly under the non-empty-stack precondition. -/
theorem execute_subroutineReturn_empty_stack (c : Chip8) (rnd : Nat) :
    (c.memory.stack = [] → c.execute rnd .subroutineReturn = none) ∧
    (c.memory.stack ≠ [] →
      c.execute rnd .subroutineReturn =
        some ({ c with memory := { c.memory with
          pc := c.memory.stack.headI,
          stack := c.memory.stack.tail } }, none)) := by
  constructor
  · intro h
    simp [Chip8.execute, h]
  · intro h
    cases hs : c.memory.stack with
    | nil => exact absurd hs h
    | cons a l => simp [Chip8.execute, hs]

/-- The concrete state of the C8 witness: a fresh machine with a single
return address `0x234` pushed on the call stack. -/
def c8State : Chip8 :=
  { Chip8.new Config.default with
    memory := { Memory.default with stack := [0x234] } }

/-- C8 witness: a fresh machine (empty stack) panics on
`SubroutineReturn`, while the same machine with `0x234` pushed pops it
into the program counter. -/
theorem execute_subroutineReturn_empty_stack_witness :
    ((Chip8.new Config.default).memory.stack = [] ∧
      (Chip8.new Config.default).execute 0 .subroutineReturn = none) ∧
    (c8State.memory.stack ≠ [] ∧
      c8State.execute 0 .subroutineReturn =
        some ({ c8State with memory := { c8State.memory with
          pc := c8State.memory.stack.headI,
          stack := c8State.memory.stack.tail } }, none)) :=
  ⟨⟨rfl, (execute_subroutineReturn_empty_stack (Chip8.new Config.default) 0).1 rfl⟩,
   ⟨by decide, (execute_subroutineReturn_empty_stack c8State 0).2 (by decide)⟩⟩

/-- C5 (decoder gap): the decode table of `instruction/parse.rs` has no
arm for the `0xFx29` family, so decoding `0xF029` fails with
`UnknownOpcode`, even though the execution engine of
`instruction/execute.rs` implements the corresponding
`SetIWithCharacterAtVx` instruction (second conjunct: it sets the index
register to the font address of the character in `v[x]`). -/
theorem parse_fx29_unknownOpcode :
    parse 0xF029 = .error (.unknownOpcode 0xF029) ∧
    (Chip8.new Config.default).execute 0 (.setIWithCharacterAtVx 0) =
      some ({ Chip8.new Config.default with
        memory := { (Chip8.new Config.default).memory with
          i := Memory.INDEX_FONT_START + (Chip8.new Config.default).memory.v 0 * 5 } },
        none) :=
  ⟨rfl, rfl⟩

/-- Helper: the decoder only ever constructs the `UnknownOpcode` failure
carrying its input word, and only when no decode rule matched. -/
theorem parse_error_not_matches (w : Nat) (e : ParseError)
    (hp : parse w = .error e) : e = .unknownOpcode w ∧ ¬ matchesRule w := by
  unfold parse at hp
  by_cases h1 : nibI w = 0x0 ∧ nibX w = 0x0 ∧ nibY w = 0xE ∧ nibN w = 0x0
  · rw [if_pos h1] at hp
    exact Except.noConfusion hp
  rw [if_neg h1] at hp
  by_cases h2 : nibI w = 0x0 ∧ nibX w = 0x0 ∧ nibY w = 0xE ∧ nibN w = 0xE
  · rw [if_pos h2] at hp
    exact Except.noConfusion hp
  rw [if_neg h2] at hp
  by_cases h3 : nibI w = 0x0
  · rw [if_pos h3] at hp
    exact Except.noConfusion hp
  rw [if_neg h3] at hp
  by_cases h4 : nibI w = 0x1
  · rw [if_pos h4] at hp
    exact Except.noConfusion hp
  rw [if_neg h4] at hp
  by_cases h5 : nibI w = 0x2
  · rw [if_pos h5] at hp
    exact Except.noConfusion hp
  rw [if_neg h5] at hp
  by_cases h6 : nibI w = 0x3
  · rw [if_pos h6] at hp
    exact Except.noConfusion hp
  rw [if_neg h6] at hp
  by_cases h7 : nibI w = 0x4
  · rw [if_pos h7] at hp
    exact Except.noConfusion hp
  rw [if_neg h7] at hp
  by_cases h8 : nibI w = 0x5 ∧ nibN w = 0x0
  · rw [if_pos h8] at hp
    exact Except.noConfusion hp
  rw [if_neg h8] at hp
  by_cases h9 : nibI w = 0x6
  · rw [if_pos h9] at hp
    exact Except.noConfusion hp
  rw [if_neg h9] at hp
  by_cases h10 : nibI w = 0x7
  · rw [if_pos h10] at hp
    exact Except.noConfusion hp
  rw [if_neg h10] at hp
  by_cases h11 : nibI w = 0x8 ∧ nibN w = 0x0
  · rw [if_pos h11] at hp
    exact Except.noConfusion hp
  rw [if_neg h11] at hp
  by_cases h12 : nibI w = 0x8 ∧ nibN w = 0x1
  · rw [if_pos h12] at hp
    exact Except.noConfusion hp
  rw [if_neg h12] at hp
  by_cases h13 : nibI w = 0x8 ∧ nibN w = 0x2
  · rw [if_pos h13] at hp
    exact Except.noConfusion hp
  rw [if_neg h13] at hp
  by_cases h14 : nibI w = 0x8 ∧ nibN w = 0x3
  · rw [if_pos h14] at hp
    exact Except.noConfusion hp
  rw [if_neg h14] at hp
  by_cases h15 : nibI w = 0x8 ∧ nibN w = 0x4
  · rw [if_pos h15] at hp
    exact Except.noConfusion hp
  rw [if_neg h15] at hp
  by_cases h16 : nibI w = 0x8 ∧ nibN w = 0x5
  · rw [if_pos h16] at hp
    exact Except.noConfusion hp
  rw [if_neg h16] at hp
  by_cases h17 : nibI w = 0x8 ∧ nibN w = 0x6
  · rw [if_pos h17] at hp
    exact Except.noConfusion hp
  rw [if_neg h17] at hp
  by_cases h18 : nibI w = 0x8 ∧ nibN w = 0x7
  · rw [if_pos h18] at hp
    exact Except.noConfusion hp
  rw [if_neg h18] at hp
  by_cases h19 : nibI w = 0x8 ∧ nibN w = 0xE
  · rw [if_pos h19] at hp
    exact Except.noConfusion hp
  rw [if_neg h19] at hp
  by_cases h20 : nibI w = 0x9 ∧ nibN w = 0x0
  · rw [if_pos h20] at hp
    exact Except.noConfusion hp
  rw [if_neg h20] at hp
  by_cases h21 : nibI w = 0xA
  · rw [if_pos h21] at hp
    exact Except.noConfusion hp
  rw [if_neg h21] at hp
  by_cases h22 : nibI w = 0xB
  · rw [if_pos h22] at hp
    exact Except.noConfusion hp
  rw [if_neg h22] at hp
  by_cases h23 : nibI w = 0xC
  · rw [if_pos h23] at hp
    exact Except.noConfusion hp
  rw [if_neg h23] at hp
  by_cases h24 : nibI w = 0xD
  · rw [if_pos h24] at hp
    exact Except.noConfusion hp
  rw [if_neg h24] at hp
  by_cases h25 : nibI w = 0xE ∧ nibY w = 0x9 ∧ nibN w = 0xE
  · rw [if_pos h25] at hp
    exact Except.noConfusion hp
  rw [if_neg h25] at hp
  by_cases h26 : nibI w = 0xE ∧ nibY w = 0xA ∧ nibN w = 0x1
  · rw [if_pos h26] at hp
    exact Except.noConfusion hp
  rw [if_neg h26] at hp
  by_cases h27 : nibI w = 0xF ∧ nibY w = 0x0 ∧ nibN w = 0x7
  · rw [if_pos h27] at hp
    exact Except.noConfusion hp
  rw [if_neg h27] at hp
  by_cases h28 : nibI w = 0xF ∧ nibY w = 0x0 ∧ nibN w = 0xA
  · rw [if_pos h28] at hp
    exact Except.noConfusion hp
  rw [if_neg h28] at hp
  by_cases h29 : nibI w = 0xF ∧ nibY w = 0x1 ∧ nibN w = 0x5
  · rw [if_pos h29] at hp
    exact Except.noConfusion hp
  rw [if_neg h29] at hp
  by_cases h30 : nibI w = 0xF ∧ nibY w = 0x1 ∧ nibN w = 0x8
  · rw [if_pos h30] at hp
    exact Except.noConfusion hp
  rw [if_neg h30] at hp
  by_cases h31 : nibI w = 0xF ∧ nibY w = 0x1 ∧ nibN w = 0xE
  · rw [if_pos h31] at hp
    exact Except.noConfusion hp
  rw [if_neg h31] at hp
  injection hp with hp
  refine ⟨hp.symm, fun hm => ?_⟩
  rcases hm with h|h|h|h|h|h|h|h|h|h|h|h|h|h|h|h|h|h|h|h|h|h|h|h|h|h|h|h|h|h|h <;> contradiction

/-- Helper: a word matching none of the decode rules falls through every
arm of the match table to the catch-all failure. -/
theorem parse_unmatched (w : Nat) (hm : ¬ matchesRule w) :
    parse w = .error (.unknownOpcode w) := by
  unfold parse
  rw [if_neg (fun h => hm (Or.inl h))]
  rw [if_neg (fun h => hm (Or.inr (Or.inl h)))]
  rw [if_neg (fun h => hm (Or.inr (Or.inr (Or.inl h))))]
  rw [if_neg (fun h => hm (Or.inr (Or.inr (Or.inr (Or.inl h)))))]
  rw [if_neg (fun h => hm (Or.inr (Or.inr (Or.inr (Or.inr (Or.inl h))))))]
  rw [if_neg (fun h => hm (Or.inr (Or.inr (Or.inr (Or.inr (Or.inr (Or.inl h)))))))]
  rw [if_neg (fun h => hm (Or.inr (Or.inr (Or.inr (Or.inr (Or.inr (Or.inr (Or.inl h))))))))]
  rw [if_neg (fun h => hm (Or.inr (Or.inr (Or.inr (Or.inr (Or.inr (Or.inr (Or.inr (Or.inl h)))))))))]
  rw [if_neg (fun h => hm (Or.inr (Or.inr (Or.inr (Or.inr (Or.inr (Or.inr (Or.inr (Or.inr (Or.inl h))))))))))]
  rw [if_neg (fun h => hm (Or.inr (Or.inr (Or.inr (Or.inr (Or.inr (Or.inr (Or.inr (Or.inr (Or.inr (Or.inl h)))))))))))]
  rw [if_neg (fun h => hm (Or.inr (Or.inr (Or.inr (Or.inr (Or.inr (Or.inr (Or.inr (Or.inr (Or.inr (Or.inr (Or.inl h))))))))))))]
  rw [if_neg (fun h => hm (Or.inr (Or.inr (Or.inr (Or.inr (Or.inr (Or.inr (Or.inr (Or.inr (Or.inr (Or.inr (Or.inr (Or.inl h)))))))))))))]
  rw [if_neg (fun h => hm (Or.inr (Or.inr (Or.inr (Or.inr (Or.inr (Or.inr (Or.inr (Or.inr (Or.inr (Or.inr (Or.inr (Or.inr (Or.inl h))))))))))))))]
  rw [if_neg (fun h => hm (Or.inr (Or.inr (Or.inr (Or.inr (Or.inr (Or.inr (Or.inr (Or.inr (Or.inr (Or.inr (Or.inr (Or.inr (Or.inr (Or.inl h)))))))))))))))]
  rw [if_neg (fun h => hm (Or.inr (Or.inr (Or.inr (Or.inr (Or.inr (Or.inr (Or.inr (Or.inr (Or.inr (Or.inr (Or.inr (Or.inr (Or.inr (Or.inr (Or.inl h))))))))))))))))]
  rw [if_neg (fun h => hm (Or.inr (Or.inr (Or.inr (Or.inr (Or.inr (Or.inr (Or.inr (Or.inr (Or.inr (Or.inr (Or.inr (Or.inr (Or.inr (Or.inr (Or.inr (Or.inl h)))))))))))))))))]
  rw [if_neg (fun h => hm (Or.inr (Or.inr (Or.inr (Or.inr (Or.inr (Or.inr (Or.inr (Or.inr (Or.inr (Or.inr (Or.inr (Or.inr (Or.inr (Or.inr (Or.inr (Or.inr (Or.inl h))))))))))))))))))]
  rw [if_neg (fun h => hm (Or.inr (Or.inr (Or.inr (Or.inr (Or.inr (Or.inr (Or.inr (Or.inr (Or.inr (Or.inr (Or.inr (Or.inr (Or.inr (Or.inr (Or.inr (Or.inr (Or.inr (Or.inl h)))))))))))))))))))]
  rw [if_neg (fun h => hm (Or.inr (Or.inr (Or.inr (Or.inr (Or.inr (Or.inr (Or.inr (Or.inr (Or.inr (Or.inr (Or.inr (Or.inr (Or.inr (Or.inr (Or.inr (Or.inr (Or.inr (Or.inr (Or.inl h))))))))))))))))))))]
  rw [if_neg (fun h => hm (Or.inr (Or.inr (Or.inr (Or.inr (Or.inr (Or.inr (Or.inr (Or.inr (Or.inr (Or.inr (Or.inr (Or.inr (Or.inr (Or.inr (Or.inr (Or.inr (Or.inr (Or.inr (Or.inr (Or.inl h)))))))))))))))))))))]
  rw [if_neg (fun h => hm (Or.inr (Or.inr (Or.inr (Or.inr (Or.inr (Or.inr (Or.inr (Or.inr (Or.inr (Or.inr (Or.inr (Or.inr (Or.inr (Or.inr (Or.inr (Or.inr (Or.inr (Or.inr (Or.inr (Or.inr (Or.inl h))))))))))))))))))))))]
  rw [if_neg (fun h => hm (Or.inr (Or.inr (Or.inr (Or.inr (Or.inr (Or.inr (Or.inr (Or.inr (Or.inr (Or.inr (Or.inr (Or.inr (Or.inr (Or.inr (Or.inr (Or.inr (Or.inr (Or.inr (Or.inr (Or.inr (Or.inr (Or.inl h)))))))))))))))))))))))]
  rw [if_neg (fun h => hm (Or.inr (Or.inr (Or.inr (Or.inr (Or.inr (Or.inr (Or.inr (Or.inr (Or.inr (Or.inr (Or.inr (Or.inr (Or.inr (Or.inr (Or.inr (Or.inr (Or.inr (Or.inr (Or.inr (Or.inr (Or.inr (Or.inr (Or.inl h))))))))))))))))))))))))]
  rw [if_neg (fun h => hm (Or.inr (Or.inr (Or.inr (Or.inr (Or.inr (Or.inr (Or.inr (Or.inr (Or.inr (Or.inr (Or.inr (Or.inr (Or.inr (Or.inr (Or.inr (Or.inr (Or.inr (Or.inr (Or.inr (Or.inr (Or.inr (Or.inr (Or.inr (Or.inl h)))))))))))))))))))))))))]
  rw [if_neg (fun h => hm (Or.inr (Or.inr (Or.inr (Or.inr (Or.inr (Or.inr (Or.inr (Or.inr (Or.inr (Or.inr (Or.inr (Or.inr (Or.inr (Or.inr (Or.inr (Or.inr (Or.inr (Or.inr (Or.inr (Or.inr (Or.inr (Or.inr (Or.inr (Or.inr (Or.inl h))))))))))))))))))))))))))]
  rw [if_neg (fun h => hm (Or.inr (Or.inr (Or.inr (Or.inr (Or.inr (Or.inr (Or.inr (Or.inr (Or.inr (Or.inr (Or.inr (Or.inr (Or.inr (Or.inr (Or.inr (Or.inr (Or.inr (Or.inr (Or.inr (Or.inr (Or.inr (Or.inr (Or.inr (Or.inr (Or.inr (Or.inl h)))))))))))))))))))))))))))]
  rw [if_neg (fun h => hm (Or.inr (Or.inr (Or.inr (Or.inr (Or.inr (Or.inr (Or.inr (Or.inr (Or.inr (Or.inr (Or.inr (Or.inr (Or.inr (Or.inr (Or.inr (Or.inr (Or.inr (Or.inr (Or.inr (Or.inr (Or.inr (Or.inr (Or.inr (Or.inr (Or.inr (Or.inr (Or.inl h))))))))))))))))))))))))))))]
  rw [if_neg (fun h => hm (Or.inr (Or.inr (Or.inr (Or.inr (Or.inr (Or.inr (Or.inr (Or.inr (Or.inr (Or.inr (Or.inr (Or.inr (Or.inr (Or.inr (Or.inr (Or.inr (Or.inr (Or.inr (Or.inr (Or.inr (Or.inr (Or.inr (Or.inr (Or.inr (Or.inr (Or.inr (Or.inr (Or.inl h)))))))))))))))))))))))))))))]
  rw [if_neg (fun h => hm (Or.inr (Or.inr (Or.inr (Or.inr (Or.inr (Or.inr (Or.inr (Or.inr (Or.inr (Or.inr (Or.inr (Or.inr (Or.inr (Or.inr (Or.inr (Or.inr (Or.inr (Or.inr (Or.inr (Or.inr (Or.inr (Or.inr (Or.inr (Or.inr (Or.inr (Or.inr (Or.inr (Or.inr (Or.inl h))))))))))))))))))))))))))))))]
  rw [if_neg (fun h => hm (Or.inr (Or.inr (Or.inr (Or.inr (Or.inr (Or.inr (Or.inr (Or.inr (Or.inr (Or.inr (Or.inr (Or.inr (Or.inr (Or.inr (Or.inr (Or.inr (Or.inr (Or.inr (Or.inr (Or.inr (Or.inr (Or.inr (Or.inr (Or.inr (Or.inr (Or.inr (Or.inr (Or.inr (Or.inr (Or.inl h)))))))))))))))))))))))))))))))]
  rw [if_neg (fun h => hm (Or.inr (Or.inr (Or.inr (Or.inr (Or.inr (Or.inr (Or.inr (Or.inr (Or.inr (Or.inr (Or.inr (Or.inr (Or.inr (Or.inr (Or.inr (Or.inr (Or.inr (Or.inr (Or.inr (Or.inr (Or.inr (Or.inr (Or.inr (Or.inr (Or.inr (Or.inr (Or.inr (Or.inr (Or.inr (Or.inr (h))))))))))))))))))))))))))))))))]


/-- C3: the decoder is a total, deterministic function of the opcode
bits: decoding the same word twice yields equal results, every word
matching one of the fixed bit-pattern rules decodes to exactly one
instruction, and every word matching no rule yields `UnknownOpcode`
carrying that word (never a panic -- `parse` is total by construction). -/
theorem parse_total_deterministic (w : Nat) :
    parse w = parse w ∧
    (matchesRule w → ∃ ins, parse w = .ok ins) ∧
    (∀ a b, parse w = .ok a → parse w = .ok b → a = b) ∧
    (¬ matchesRule w → parse w = .error (.unknownOpcode w)) := by
  refine ⟨rfl, ?_, ?_, parse_unmatched w⟩
  · intro hm
    cases hp : parse w with
    | ok ins => exact ⟨ins, rfl⟩
    | error e => exact absurd hm (parse_error_not_matches w e hp).2
  · intro a b ha hb
    rw [ha] at hb
    injection hb

/-- C3 witness: `0x00E0` matches a rule and decodes; `0x5001` (first
nibble 5 with a non-zero last nibble) matches no rule and yields
`UnknownOpcode 0x5001`. -/
theorem parse_total_deterministic_witness :
    matchesRule 0x00E0 ∧ (∃ ins, parse 0x00E0 = .ok ins) ∧
    ¬ matchesRule 0x5001 ∧ parse 0x5001 = .error (.unknownOpcode 0x5001) :=
  ⟨by decide, (parse_total_deterministic 0x00E0).2.1 (by decide),
   by decide, (parse_total_deterministic 0x5001).2.2.2 (by decide)⟩

/-- C9: loading any ROM first performs the full reset, so `load` of the
empty ROM on an arbitrarily mutated memory gives exactly the
freshly-constructed memory, and `load rom` behaves as if run on a fresh
memory, copying `rom` into RAM at `0x200` over the reset RAM. The
remaining conjuncts pin the fresh memory down field by field: RAM is all
zero except the 80-byte font table at the font region, the framebuffer,
stack, registers, timers, index register and key flags are cleared, and
the program counter is `0x200`. -/
theorem load_empty_resets (m : Memory) :
    m.load [] = Memory.default ∧
    (∀ rom, m.load rom = Memory.default.load rom) ∧
    (∀ rom, (m.load rom).ram =
      writeBytes Memory.default.ram Memory.INDEX_PROGRAM_START rom) ∧
    (∀ j, Memory.default.ram j =
      if Memory.INDEX_FONT_START ≤ j ∧ j < Memory.INDEX_FONT_START + FONT.length then
        FONT.getD (j - Memory.INDEX_FONT_START) 0
      else 0) ∧
    Memory.default.vram = (fun _ _ => false) ∧
    Memory.default.stack = [] ∧
    Memory.default.pc = 0x200 ∧
    Memory.default.dt = 0 ∧ Memory.default.st = 0 ∧ Memory.default.i = 0 ∧
    Memory.default.v = (fun _ => 0) ∧
    Memory.default.keys = (fun _ => false) := by
  refine ⟨rfl, fun rom => rfl, fun rom => rfl, ?_, rfl, rfl, rfl, rfl, rfl, rfl, rfl, rfl⟩
  intro j
  have hd : Memory.default.ram = writeBytes (fun _ => 0) Memory.INDEX_FONT_START FONT := rfl
  rw [hd, writeBytes_apply]

/-- C7: `press_key` and `unpress_key` fail with `InvalidKey k` exactly
when `k` is outside `[0, 16)`, leaving the machine unchanged on failure;
on success `press_key` sets the key flag, and `unpress_key` clears it
and, when the machine was waiting for a key in `WaitingForKey{vx}`,
stores `k` in `v[vx]` and returns to `Ready`. The key-state query
instructions fail with `ExecuteError::InvalidKey` (not a panic) when
`v[vx]` is outside `[0, 16)`. -/
theorem key_handling (c : Chip8) (rnd k : Nat) :
    ((c.pressKey k).2 = none ↔ k < 16) ∧
    (¬ k < 16 → c.pressKey k = (c, some (.executeError (.invalidKey k)))) ∧
    (k < 16 → c.pressKey k = ({ c with memory := c.memory.setKey k true }, none)) ∧
    ((c.unpressKey k).2 = none ↔ k < 16) ∧
    (¬ k < 16 → c.unpressKey k = (c, some (.executeError (.invalidKey k)))) ∧
    (k < 16 → c.state = .ready →
      c.unpressKey k = ({ c with memory := c.memory.setKey k false }, none)) ∧
    (∀ vx, k < 16 → c.state = .waitingForKey vx →
      c.unpressKey k =
        ({ c with memory := (c.memory.setKey k false).setV vx k, state := .ready }, none)) ∧
    (∀ vx, ¬ c.memory.v vx < 16 →
      c.execute rnd (.skipIfVxKeyPressed vx) =
        some (c, some (.invalidKey (c.memory.v vx))) ∧
      c.execute rnd (.skipIfVxKeyNotPressed vx) =
        some (c, some (.invalidKey (c.memory.v vx)))) := by
  refine ⟨?_, ?_, ?_, ?_, ?_, ?_, ?_, ?_⟩
  · by_cases hk : 15 < k
    · simp only [Chip8.pressKey, if_pos hk]
      constructor
      · intro h; cases h
      · omega
    · simp only [Chip8.pressKey, if_neg hk]
      constructor
      · intro _; omega
      · intro _; trivial
  · intro hk
    rw [Chip8.pressKey, if_pos (by omega)]
  · intro hk
    rw [Chip8.pressKey, if_neg (by omega)]
  · by_cases hk : 15 < k
    · simp only [Chip8.unpressKey, if_pos hk]
      constructor
      · intro h; cases h
      · omega
    · rw [Chip8.unpressKey, if_neg hk]
      cases hst : c.state with
      | ready =>
        simp only [hst]
        constructor
        · intro _; omega
        · intro _; trivial
      | waitingForKey vx =>
        simp only [hst]
        constructor
        · intro _; omega
        · intro _; trivial
  · intro hk
    rw [Chip8.unpressKey, if_pos (by omega)]
  · intro hk hst
    rw [Chip8.unpressKey, if_neg (by omega)]
    simp only [hst]
  · intro vx hk hst
    rw [Chip8.unpressKey, if_neg (by omega)]
    simp only [hst]
  · intro vx hv
    constructor
    · rw [Chip8.execute, if_neg hv]
    · rw [Chip8.execute, if_neg hv]

/-- The concrete state of the C7 waiting-key witness: a fresh machine
blocked on `WaitingForKey{vx = 3}`. -/
def c7State : Chip8 :=
  { Chip8.new Config.default with state := .waitingForKey 3 }

/-- The concrete state of the C7 invalid-register witness:
`registers[1] = 20`, an out-of-range key index. -/
def c7bState : Chip8 :=
  { Chip8.new Config.default with memory := Memory.default.setV 1 20 }

/-- C7 witness: `press_key 16` fails with `InvalidKey 16` and changes
nothing; `unpress_key 5` while waiting on register 3 clears the key,
stores 5 in `v[3]` and returns to `Ready`; `SkipIfVxKeyPressed` with
`v[1] = 20` fails with `InvalidKey 20`. -/
theorem key_handling_witness :
    (¬ (16 : Nat) < 16 ∧
      (Chip8.new Config.default).pressKey 16 =
        (Chip8.new Config.default, some (.executeError (.invalidKey 16)))) ∧
    ((5 : Nat) < 16 ∧ c7State.state = .waitingForKey 3 ∧
      c7State.unpressKey 5 =
        ({ c7State with
          memory := (c7State.memory.setKey 5 false).setV 3 5,
          state := .ready }, none) ∧
      (c7State.unpressKey 5).1.memory.v 3 = 5) ∧
    (¬ c7bState.memory.v 1 < 16 ∧
      c7bState.execute 0 (.skipIfVxKeyPressed 1) =
        some (c7bState, some (.invalidKey (c7bState.memory.v 1)))) :=
  ⟨⟨by decide, (key_handling (Chip8.new Config.default) 0 16).2.1 (by decide)⟩,
   ⟨by decide, rfl,
    (key_handling c7State 0 5).2.2.2.2.2.2.1 3 (by decide) rfl,
    by decide⟩,
   ⟨by decide, ((key_handling c7bState 0 0).2.2.2.2.2.2.2 1 (by decide)).1⟩⟩

/-- C6: when the controller is blocked in `WaitingForKey` or the delay
timer is positive, `advance_instruction` is a complete no-op that
returns success, leaving the machine exactly as it was. Otherwise
(`Ready` and delay timer zero, with the two fetch bytes in RAM bounds)
it fetches the big-endian word at `program_counter`, advances
`program_counter` by 2 before executing, decodes, executes, and
propagates any decode or execute error to the caller. -/
theorem advanceInstruction_spec (c : Chip8) (rnd : Nat) :
    ((∃ vx, c.state = .waitingForKey vx) ∨ 0 < c.memory.dt →
      c.advanceInstruction rnd = some (c, none)) ∧
    (c.state = .ready → c.memory.dt = 0 → c.memory.pc + 1 < Memory.SIZE_RAM →
      c.advanceInstruction rnd =
        (match parse (c.memory.ram c.memory.pc * 256 + c.memory.ram (c.memory.pc + 1)) with
         | .error e =>
           some ({ c with memory := { c.memory with pc := c.memory.pc + 2 } },
             some (.parseError e))
         | .ok ins =>
           match ({ c with memory := { c.memory with pc := c.memory.pc + 2 } }
               : Chip8).execute rnd ins with
           | none => none
           | some (c2, some e) => some (c2, some (.executeError e))
           | some (c2, none) => some (c2, none))) := by
  constructor
  · intro h
    rw [Chip8.advanceInstruction, if_neg]
    rintro ⟨hst, hdt⟩
    rcases h with ⟨vx, hw⟩ | hdt2
    · rw [hw] at hst
      cases hst
    · omega
  · intro hst hdt hpc
    rw [Chip8.advanceInstruction, if_pos ⟨hst, hdt⟩]
    rw [if_pos hpc]
    have hmod : c.memory.incrementPc = { c.memory with pc := c.memory.pc + 2 } := by
      rw [Memory.incrementPc]
      have hlt : c.memory.pc + 2 < 65536 := by
        have h4 : Memory.SIZE_RAM = 4096 := rfl
        rw [h4] at hpc
        omega
      rw [Nat.mod_eq_of_lt hlt]
    rw [hmod]

/-- The concrete state of the C6 waiting witness: a fresh machine blocked
on `WaitingForKey{vx = 0}`. -/
def c6WaitState : Chip8 :=
  { Chip8.new Config.default with state := .waitingForKey 0 }

/-- The concrete state of the C6 delay-timer witness: a fresh machine with
`delay_timer = 5`. -/
def c6DtState : Chip8 :=
  { Chip8.new Config.default with memory := { Memory.default with dt := 5 } }

/-- C6 witness: stepping is a no-op while waiting for a key or while the
delay timer is positive; on a fresh `Ready` machine (RAM zero at `0x200`)
the fetched word `0x0000` decodes to the `System` instruction, the
program counter advances to `0x202`, and the `UnsupportedInstruction`
execute error is propagated. -/
theorem advanceInstruction_spec_witness :
    ((∃ vx, c6WaitState.state = .waitingForKey vx) ∧
      c6WaitState.advanceInstruction 0 = some (c6WaitState, none)) ∧
    (0 < c6DtState.memory.dt ∧
      c6DtState.advanceInstruction 0 = some (c6DtState, none)) ∧
    ((Chip8.new Config.default).state = .ready ∧
      (Chip8.new Config.default).memory.dt = 0 ∧
      (Chip8.new Config.default).memory.pc + 1 < Memory.SIZE_RAM ∧
      (Chip8.new Config.default).advanceInstruction 0 =
        (match parse ((Chip8.new Config.default).memory.ram
            (Chip8.new Config.default).memory.pc * 256 +
            (Chip8.new Config.default).memory.ram
            ((Chip8.new Config.default).memory.pc + 1)) with
         | .error e =>
           some ({ Chip8.new Config.default with
             memory := { (Chip8.new Config.default).memory with
               pc := (Chip8.new Config.default).memory.pc + 2 } },
             some (.parseError e))
         | .ok ins =>
           match ({ Chip8.new Config.default with
               memory := { (Chip8.new Config.default).memory with
                 pc := (Chip8.new Config.default).memory.pc + 2 } }
               : Chip8).execute 0 ins with
           | none => none
           | some (c2, some e) => some (c2, some (.executeError e))
           | some (c2, none) => some (c2, none)) ∧
      ((Chip8.new Config.default).advanceInstruction 0).map
        (fun p => (p.1.memory.pc, p.2)) =
        some (0x202, some (.executeError (.unsupportedInstruction (.system 0))))) :=
  ⟨⟨⟨0, rfl⟩, (advanceInstruction_spec c6WaitState 0).1 (.inl ⟨0, rfl⟩)⟩,
   ⟨by decide, (advanceInstruction_spec c6DtState 0).1 (.inr (by decide))⟩,
   ⟨rfl, rfl, by decide,
    (advanceInstruction_spec (Chip8.new Config.default) 0).2 rfl rfl (by decide),
    by decide⟩⟩

/-! Specification predicates and lemmas for the `DisplayDraw` loops. -/

/-- A set sprite bit of row byte `row`, scanned at positions
`q = p, ..., p + n - 1`, lands on column `X = x + q` within the display
width. -/
abbrev hitCond (row x p n X : Nat) : Prop :=
  ∃ q < p + n, p ≤ q ∧ X = x + q ∧ x + q < 64 ∧ row.testBit (7 - q) = true


/-- A set sprite bit of row byte `row` lands within the display width on
a pixel of `vramRow` that is currently set (a collision). -/
abbrev collCond (vramRow : Nat → Bool) (row x p n : Nat) : Prop :=
  ∃ q < p + n, p ≤ q ∧ x + q < 64 ∧ row.testBit (7 - q) = true ∧ vramRow (x + q) = true


/-- Some set sprite bit of row byte `row` lands within the display width
(the condition under which a row at or past the bottom edge executes
`break 'rows`). -/
abbrev brkCond (row x p n : Nat) : Prop :=
  ∃ q < p + n, p ≤ q ∧ row.testBit (7 - q) = true ∧ x + q < 64


/-- Some sprite row `rr` of the draw (scanned at rows `r, ..., r + n - 1`,
reading row byte `ram (i + rr)`) puts a set bit on the in-bounds display
cell `(X, Y)`. -/
abbrev spriteHit (ram : Nat → Nat) (i x y r n X Y : Nat) : Prop :=
  ∃ rr < r + n, r ≤ rr ∧ Y = y + rr ∧ y + rr < 32 ∧ hitCond (ram (i + rr)) x 0 8 X


/-- Some sprite row of the draw turns an already-set in-bounds pixel off
(the collision condition that sets the flag register). -/
abbrev spriteColl (ram : Nat → Nat) (vram : Nat → Nat → Bool) (i x y r n : Nat) : Prop :=
  ∃ rr < r + n, r ≤ rr ∧ y + rr < 32 ∧ collCond (vram (y + rr)) (ram (i + rr)) x 0 8


/-- All fields of the machine memory except the framebuffer and the
registers agree. -/
def Memory.eqExceptVramV (m m' : Memory) : Prop :=
  m'.ram = m.ram ∧ m'.stack = m.stack ∧ m'.pc = m.pc ∧ m'.dt = m.dt ∧
  m'.st = m.st ∧ m'.i = m.i ∧ m'.keys = m.keys

theorem Memory.eqExceptVramV_refl (m : Memory) : m.eqExceptVramV m :=
  ⟨rfl, rfl, rfl, rfl, rfl, rfl, rfl⟩

theorem Memory.eqExceptVramV_trans {a b c : Memory}
    (h1 : a.eqExceptVramV b) (h2 : b.eqExceptVramV c) : a.eqExceptVramV c := by
  obtain ⟨u1, u2, u3, u4, u5, u6, u7⟩ := h1
  obtain ⟨w1, w2, w3, w4, w5, w6, w7⟩ := h2
  exact ⟨w1.trans u1, w2.trans u2, w3.trans u3, w4.trans u4,
    w5.trans u5, w6.trans u6, w7.trans u7⟩

/-- The inner pixel loop on a row at or past the bottom edge never draws:
it returns the memory unchanged and reports `break 'rows` exactly when
some set bit lands within the display width. -/
theorem drawRow_oob (x yr row : Nat) (hyr : 32 ≤ yr) :
    ∀ (n : Nat) (m : Memory) (p : Nat),
      (m.drawRow x yr row p n).1 = m ∧
      ((m.drawRow x yr row p n).2 = true ↔ brkCond row x p n) := by
  intro n
  induction n with
  | zero =>
    intro m p
    refine ⟨rfl, ?_⟩
    constructor
    · intro h
      exact absurd h (by simp [Memory.drawRow])
    · rintro ⟨q, hq, _⟩
      omega
  | succ n ih =>
    intro m p
    rw [Memory.drawRow]
    by_cases hb : row.testBit (7 - p) = true
    · rw [if_pos hb]
      by_cases hx : x + p ≥ Memory.SIZE_DISPLAY_WIDTH
      · rw [if_pos hx]
        refine ⟨rfl, ?_⟩
        constructor
        · intro h
          cases h
        · rintro ⟨q, hq1, hq2, hq3, hq4⟩
          have : (64 : Nat) ≤ x + q := by
            have h64 : Memory.SIZE_DISPLAY_WIDTH = 64 := rfl
            rw [h64] at hx
            omega
          omega
      · rw [if_neg hx, if_pos (show yr ≥ Memory.SIZE_DISPLAY_HEIGHT from hyr)]
        refine ⟨rfl, ?_⟩
        constructor
        · intro _
          refine ⟨p, by omega, le_refl p, hb, ?_⟩
          have h64 : Memory.SIZE_DISPLAY_WIDTH = 64 := rfl
          rw [h64] at hx
          omega
        · intro _
          rfl
    · rw [if_neg hb]
      obtain ⟨ih1, ih2⟩ := ih m (p + 1)
      refine ⟨ih1, ih2.trans ?_⟩
      constructor
      · rintro ⟨q, hq1, hq2, hq3, hq4⟩
        exact ⟨q, by omega, by omega, hq3, hq4⟩
      · rintro ⟨q, hq1, hq2, hq3, hq4⟩
        have hqp : q ≠ p := fun he => hb (he ▸ hq3)
        exact ⟨q, by omega, by omega, hq3, hq4⟩

/-- Pointwise reading of a single-pixel framebuffer write. -/
theorem setPixel_apply (m : Memory) (y0 x0 : Nat) (b : Bool) (Y X : Nat) :
    (m.setPixel y0 x0 b).vram Y X =
      if Y = y0 then (if X = x0 then b else m.vram Y X) else m.vram Y X := by
  by_cases hY : Y = y0
  · subst hY
    by_cases hX : X = x0
    · subst hX
      simp [Memory.setPixel, Function.update_apply]
    · simp [Memory.setPixel, Function.update_apply, hX]
  · simp [Memory.setPixel, Function.update_apply, hY]

/-- Pointwise reading of a single-register write. -/
theorem setV_apply (m : Memory) (j0 val j : Nat) :
    (m.setV j0 val).v j = if j = j0 then val else m.v j := by
  simp [Memory.setV, Function.update_apply]

theorem eqExceptVramV_setPixel (m : Memory) (y0 x0 : Nat) (b : Bool) :
    m.eqExceptVramV (m.setPixel y0 x0 b) :=
  ⟨rfl, rfl, rfl, rfl, rfl, rfl, rfl⟩

theorem eqExceptVramV_setV (m : Memory) (j0 val : Nat) :
    m.eqExceptVramV (m.setV j0 val) :=
  ⟨rfl, rfl, rfl, rfl, rfl, rfl, rfl⟩

/-- The collision condition only inspects the framebuffer row at the
scanned columns. -/
theorem collCond_congr (f g : Nat → Bool) (row x a n : Nat)
    (h : ∀ q, a ≤ q → q < a + n → f (x + q) = g (x + q)) :
    collCond f row x a n ↔ collCond g row x a n := by
  constructor
  · rintro ⟨q, hq1, hq2, hq3, hq4, hq5⟩
    exact ⟨q, hq1, hq2, hq3, hq4, (h q hq2 hq1).symm.trans hq5⟩
  · rintro ⟨q, hq1, hq2, hq3, hq4, hq5⟩
    exact ⟨q, hq1, hq2, hq3, hq4, (h q hq2 hq1).trans hq5⟩

/-- The inner pixel loop on a row above the bottom edge never breaks,
leaves every non-display non-register field alone, XOR-draws exactly the
set bits that land within the display width, and raises the flag
register to 1 exactly when one of those bits lands on an already-set
pixel. -/
theorem drawRow_inb (x yr row : Nat) (hyr : yr < 32) :
    ∀ (n : Nat) (m : Memory) (p : Nat),
      (m.drawRow x yr row p n).2 = false ∧
      Memory.eqExceptVramV m (m.drawRow x yr row p n).1 ∧
      (∀ Y X, (m.drawRow x yr row p n).1.vram Y X =
        if Y = yr ∧ hitCond row x p n X then ! m.vram Y X else m.vram Y X) ∧
      (∀ j, (m.drawRow x yr row p n).1.v j =
        if j = 15 ∧ collCond (m.vram yr) row x p n then 1 else m.v j) := by
  intro n
  induction n with
  | zero =>
    intro m p
    refine ⟨rfl, Memory.eqExceptVramV_refl m, fun Y X => ?_, fun j => ?_⟩
    · rw [Memory.drawRow, if_neg]
      rintro ⟨-, q, hq1, hq2, -⟩
      omega
    · rw [Memory.drawRow, if_neg]
      rintro ⟨-, q, hq1, hq2, -⟩
      omega
  | succ n ih =>
    intro m p
    by_cases hb : row.testBit (7 - p) = true
    · by_cases hx : x + p ≥ Memory.SIZE_DISPLAY_WIDTH
      · have h64 : (64 : Nat) ≤ x + p := hx
        have hstep : m.drawRow x yr row p (n + 1) = (m, false) := by
          rw [Memory.drawRow, if_pos hb, if_pos hx]
        rw [hstep]
        refine ⟨rfl, Memory.eqExceptVramV_refl m, fun Y X => ?_, fun j => ?_⟩
        · rw [if_neg]
          rintro ⟨-, q, hq1, hq2, -, hq4, -⟩
          omega
        · rw [if_neg]
          rintro ⟨-, q, hq1, hq2, hq3, -⟩
          omega
      · have hx64 : x + p < 64 := by
          have hw : Memory.SIZE_DISPLAY_WIDTH = 64 := rfl
          rw [hw] at hx
          omega
        have hyr' : ¬ yr ≥ Memory.SIZE_DISPLAY_HEIGHT := by
          have hh : Memory.SIZE_DISPLAY_HEIGHT = 32 := rfl
          rw [hh]
          omega
        cases hold : m.vram yr (x + p) with
        | false =>
          -- the pixel was unset: it is drawn on, no collision at this bit
          have hstep : m.drawRow x yr row p (n + 1) =
              (m.setPixel yr (x + p) true).drawRow x yr row (p + 1) n := by
            rw [Memory.drawRow, if_pos hb, if_neg hx, if_neg hyr']
            rw [hold]
            rfl
          rw [hstep]
          obtain ⟨ih1, ih2, ih3, ih4⟩ := ih (m.setPixel yr (x + p) true) (p + 1)
          refine ⟨ih1,
            Memory.eqExceptVramV_trans (eqExceptVramV_setPixel m yr (x + p) true) ih2,
            fun Y X => ?_, fun j => ?_⟩
          · rw [ih3 Y X]
            by_cases hY : Y = yr
            · by_cases hX : X = x + p
              · rw [hY, hX]
                have hni : ¬ (yr = yr ∧ hitCond row x (p + 1) n (x + p)) := by
                  rintro ⟨-, q, hq1, hq2, hq3, -⟩
                  omega
                have hpi : yr = yr ∧ hitCond row x p (n + 1) (x + p) :=
                  ⟨rfl, p, by omega, le_refl p, rfl, hx64, hb⟩
                rw [if_neg hni, if_pos hpi, setPixel_apply, if_pos rfl, if_pos rfl, hold]
                rfl
              · rw [hY]
                have hpix : (m.setPixel yr (x + p) true).vram yr X = m.vram yr X := by
                  rw [setPixel_apply, if_pos rfl, if_neg hX]
                rw [hpix]
                by_cases hc : hitCond row x (p + 1) n X
                · obtain ⟨q, hq1, hq2, hq3, hq4, hq5⟩ := hc
                  rw [if_pos ⟨rfl, q, hq1, hq2, hq3, hq4, hq5⟩,
                    if_pos (show yr = yr ∧ hitCond row x p (n + 1) X from
                      ⟨rfl, q, by omega, by omega, hq3, hq4, hq5⟩)]
                · rw [if_neg, if_neg]
                  · rintro ⟨-, q, hq1, hq2, hq3, hq4, hq5⟩
                    rcases Nat.eq_or_lt_of_le hq2 with he | hlt
                    · exact hX (by omega)
                    · exact hc ⟨q, by omega, by omega, hq3, hq4, hq5⟩
                  · rintro ⟨-, hc2⟩
                    exact hc hc2
            · have hpix : (m.setPixel yr (x + p) true).vram Y X = m.vram Y X := by
                rw [setPixel_apply, if_neg hY]
              rw [hpix, if_neg (fun hcon => hY hcon.1), if_neg (fun hcon => hY hcon.1)]
          · rw [ih4 j]
            have hveq : (m.setPixel yr (x + p) true).v j = m.v j := rfl
            have hcoll : collCond ((m.setPixel yr (x + p) true).vram yr) row x (p + 1) n ↔
                collCond (m.vram yr) row x (p + 1) n := by
              apply collCond_congr
              intro q hq1 hq2
              rw [setPixel_apply, if_pos rfl, if_neg]
              omega
            rw [hveq]
            by_cases hj : j = 15
            · by_cases hc : collCond (m.vram yr) row x (p + 1) n
              · rw [if_pos ⟨hj, hcoll.mpr hc⟩]
                obtain ⟨q, hq1, hq2, hq3, hq4, hq5⟩ := hc
                rw [if_pos (show j = 15 ∧ collCond (m.vram yr) row x p (n + 1) from
                  ⟨hj, q, by omega, by omega, hq3, hq4, hq5⟩)]
              · rw [if_neg (fun hcon => hc (hcoll.mp hcon.2)), if_neg]
                rintro ⟨-, q, hq1, hq2, hq3, hq4, hq5⟩
                rcases Nat.eq_or_lt_of_le hq2 with he | hlt
                · rw [← he] at hq5
                  rw [hold] at hq5
                  cases hq5
                · exact hc ⟨q, by omega, by omega, hq3, hq4, hq5⟩
            · rw [if_neg (fun hcon => hj hcon.1), if_neg (fun hcon => hj hcon.1)]
        | true =>
          -- the pixel was set: it is cleared, the collision raises the flag
          have hstep : m.drawRow x yr row p (n + 1) =
              ((m.setPixel yr (x + p) false).setV 15 1).drawRow x yr row (p + 1) n := by
            rw [Memory.drawRow, if_pos hb, if_neg hx, if_neg hyr']
            rw [hold]
            rfl
          rw [hstep]
          obtain ⟨ih1, ih2, ih3, ih4⟩ := ih ((m.setPixel yr (x + p) false).setV 15 1) (p + 1)
          have hm2vram : ∀ Y X, ((m.setPixel yr (x + p) false).setV 15 1).vram Y X =
              (m.setPixel yr (x + p) false).vram Y X := fun Y X => rfl
          refine ⟨ih1,
            Memory.eqExceptVramV_trans
              (Memory.eqExceptVramV_trans (eqExceptVramV_setPixel m yr (x + p) false)
                (eqExceptVramV_setV (m.setPixel yr (x + p) false) 15 1)) ih2,
            fun Y X => ?_, fun j => ?_⟩
          · rw [ih3 Y X]
            by_cases hY : Y = yr
            · by_cases hX : X = x + p
              · rw [hY, hX]
                have hni : ¬ (yr = yr ∧ hitCond row x (p + 1) n (x + p)) := by
                  rintro ⟨-, q, hq1, hq2, hq3, -⟩
                  omega
                have hpi : yr = yr ∧ hitCond row x p (n + 1) (x + p) :=
                  ⟨rfl, p, by omega, le_refl p, rfl, hx64, hb⟩
                rw [if_neg hni, if_pos hpi, hm2vram, setPixel_apply, if_pos rfl,
                  if_pos rfl, hold]
                rfl
              · rw [hY]
                have hpix : ((m.setPixel yr (x + p) false).setV 15 1).vram yr X =
                    m.vram yr X := by
                  rw [hm2vram, setPixel_apply, if_pos rfl, if_neg hX]
                rw [hpix]
                by_cases hc : hitCond row x (p + 1) n X
                · obtain ⟨q, hq1, hq2, hq3, hq4, hq5⟩ := hc
                  rw [if_pos ⟨rfl, q, hq1, hq2, hq3, hq4, hq5⟩,
                    if_pos (show yr = yr ∧ hitCond row x p (n + 1) X from
                      ⟨rfl, q, by omega, by omega, hq3, hq4, hq5⟩)]
                · rw [if_neg, if_neg]
                  · rintro ⟨-, q, hq1, hq2, hq3, hq4, hq5⟩
                    rcases Nat.eq_or_lt_of_le hq2 with he | hlt
                    · exact hX (by omega)
                    · exact hc ⟨q, by omega, by omega, hq3, hq4, hq5⟩
                  · rintro ⟨-, hc2⟩
                    exact hc hc2
            · have hpix : ((m.setPixel yr (x + p) false).setV 15 1).vram Y X =
                  m.vram Y X := by
                rw [hm2vram, setPixel_apply, if_neg hY]
              rw [hpix, if_neg (fun hcon => hY hcon.1), if_neg (fun hcon => hY hcon.1)]
          · rw [ih4 j]
            have hveq : ∀ j, ((m.setPixel yr (x + p) false).setV 15 1).v j =
                if j = 15 then 1 else m.v j := by
              intro j
              rw [setV_apply]
              rfl
            have hcoll : collCond (((m.setPixel yr (x + p) false).setV 15 1).vram yr)
                row x (p + 1) n ↔ collCond (m.vram yr) row x (p + 1) n := by
              apply collCond_congr
              intro q hq1 hq2
              rw [hm2vram, setPixel_apply, if_pos rfl, if_neg]
              omega
            by_cases hj : j = 15
            · have hgoal : j = 15 ∧ collCond (m.vram yr) row x p (n + 1) :=
                ⟨hj, p, by omega, le_refl p, hx64, hb, hold⟩
              rw [hveq j, if_pos hj, if_pos hgoal]
              by_cases hc : collCond (((m.setPixel yr (x + p) false).setV 15 1).vram yr)
                  row x (p + 1) n
              · rw [if_pos ⟨hj, hc⟩]
              · rw [if_neg (fun hcon => hc hcon.2)]
            · rw [hveq j, if_neg hj, if_neg (fun hcon => hj hcon.1),
                if_neg (fun hcon => hj hcon.1)]
    · -- the sprite bit is unset: nothing is drawn at this position
      have hstep : m.drawRow x yr row p (n + 1) = m.drawRow x yr row (p + 1) n := by
        rw [Memory.drawRow, if_neg hb]
      rw [hstep]
      obtain ⟨ih1, ih2, ih3, ih4⟩ := ih m (p + 1)
      refine ⟨ih1, ih2, fun Y X => ?_, fun j => ?_⟩
      · rw [ih3 Y X]
        by_cases hc : Y = yr ∧ hitCond row x (p + 1) n X
        · obtain ⟨hY, q, hq1, hq2, hq3, hq4, hq5⟩ := hc
          rw [if_pos (show Y = yr ∧ hitCond row x (p + 1) n X from
              ⟨hY, q, hq1, hq2, hq3, hq4, hq5⟩),
            if_pos (show Y = yr ∧ hitCond row x p (n + 1) X from
              ⟨hY, q, by omega, by omega, hq3, hq4, hq5⟩)]
        · rw [if_neg hc, if_neg]
          rintro ⟨hY, q, hq1, hq2, hq3, hq4, hq5⟩
          have hqp : q ≠ p := fun he => hb (he ▸ hq5)
          exact hc ⟨hY, q, by omega, by omega, hq3, hq4, hq5⟩
      · rw [ih4 j]
        by_cases hc : j = 15 ∧ collCond (m.vram yr) row x (p + 1) n
        · obtain ⟨hj, q, hq1, hq2, hq3, hq4, hq5⟩ := hc
          rw [if_pos (show j = 15 ∧ collCond (m.vram yr) row x (p + 1) n from
              ⟨hj, q, hq1, hq2, hq3, hq4, hq5⟩),
            if_pos (show j = 15 ∧ collCond (m.vram yr) row x p (n + 1) from
              ⟨hj, q, by omega, by omega, hq3, hq4, hq5⟩)]
        · rw [if_neg hc, if_neg]
          rintro ⟨hj, q, hq1, hq2, hq3, hq4, hq5⟩
          have hqp : q ≠ p := fun he => hb (he ▸ hq4)
          exact hc ⟨hj, q, by omega, by omega, hq3, hq4, hq5⟩

/-- The collision condition of the whole draw only inspects the
framebuffer rows that the draw scans. -/
theorem spriteColl_congr (ram : Nat → Nat) (v1 v2 : Nat → Nat → Bool)
    (i x y a n : Nat)
    (h : ∀ rr X, a ≤ rr → rr < a + n → v1 (y + rr) X = v2 (y + rr) X) :
    spriteColl ram v1 i x y a n ↔ spriteColl ram v2 i x y a n := by
  constructor
  · rintro ⟨rr, hr1, hr2, hr3, hc⟩
    exact ⟨rr, hr1, hr2, hr3,
      (collCond_congr (v1 (y + rr)) (v2 (y + rr)) (ram (i + rr)) x 0 8
        (fun q _ _ => h rr (x + q) hr2 hr1)).mp hc⟩
  · rintro ⟨rr, hr1, hr2, hr3, hc⟩
    exact ⟨rr, hr1, hr2, hr3,
      (collCond_congr (v1 (y + rr)) (v2 (y + rr)) (ram (i + rr)) x 0 8
        (fun q _ _ => h rr (x + q) hr2 hr1)).mpr hc⟩

/-- The outer row loop of the draw, on rows whose reads stay inside RAM:
it always succeeds, leaves every non-display non-register field alone,
XOR-draws exactly the set sprite bits that land within the display (rows
past the bottom edge are clipped, as are columns past the right edge),
and raises the flag register to 1 exactly when a drawn bit lands on an
already-set pixel. -/
theorem drawRows_spec (x y : Nat) :
    ∀ (n : Nat) (m : Memory) (r : Nat), m.i + (r + n) ≤ 4096 →
      ∃ m', m.drawRows x y r n = some m' ∧
        Memory.eqExceptVramV m m' ∧
        (∀ Y X, m'.vram Y X =
          if spriteHit m.ram m.i x y r n X Y then ! m.vram Y X else m.vram Y X) ∧
        (∀ j, m'.v j =
          if j = 15 ∧ spriteColl m.ram m.vram m.i x y r n then 1 else m.v j) := by
  intro n
  induction n with
  | zero =>
    intro m r _
    refine ⟨m, by rw [Memory.drawRows], Memory.eqExceptVramV_refl m,
      fun Y X => ?_, fun j => ?_⟩
    · rw [if_neg]
      rintro ⟨rr, hr1, hr2, -⟩
      omega
    · rw [if_neg]
      rintro ⟨-, rr, hr1, hr2, -⟩
      omega
  | succ n ih =>
    intro m r hin
    have hramsz : Memory.SIZE_RAM = 4096 := rfl
    have haddr : (m.i + r) % 65536 = m.i + r := Nat.mod_eq_of_lt (by omega)
    have hlt : m.i + r < Memory.SIZE_RAM := by omega
    have hstep : m.drawRows x y r (n + 1) =
        (if (m.drawRow x (y + r) (m.ram (m.i + r)) 0 8).2 = true
         then some (m.drawRow x (y + r) (m.ram (m.i + r)) 0 8).1
         else (m.drawRow x (y + r) (m.ram (m.i + r)) 0 8).1.drawRows x y (r + 1) n) := by
      rw [Memory.drawRows]
      simp only [haddr, if_pos hlt]
    by_cases hyrow : y + r < 32
    · obtain ⟨d1, d2, d3, d4⟩ := drawRow_inb x (y + r) (m.ram (m.i + r)) hyrow 8 m 0
      have hram : (m.drawRow x (y + r) (m.ram (m.i + r)) 0 8).1.ram = m.ram := d2.1
      have hi : (m.drawRow x (y + r) (m.ram (m.i + r)) 0 8).1.i = m.i := d2.2.2.2.2.2.1
      obtain ⟨m', hm'eq, hm'f, hm'vram, hm'v⟩ :=
        ih (m.drawRow x (y + r) (m.ram (m.i + r)) 0 8).1 (r + 1) (by rw [hi]; omega)
      refine ⟨m', ?_, Memory.eqExceptVramV_trans d2 hm'f, fun Y X => ?_, fun j => ?_⟩
      · rw [hstep, if_neg, hm'eq]
        rw [d1]
        exact Bool.false_ne_true
      · rw [hm'vram Y X, hram, hi, d3 Y X]
        by_cases hY : Y = y + r
        · have hsub : ¬ spriteHit m.ram m.i x y (r + 1) n X Y := by
            rintro ⟨rr, hr1, hr2, hr3, -⟩
            omega
          rw [if_neg hsub]
          by_cases hc : hitCond (m.ram (m.i + r)) x 0 8 X
          · rw [if_pos ⟨hY, hc⟩,
              if_pos (show spriteHit m.ram m.i x y r (n + 1) X Y from
                ⟨r, by omega, le_refl r, hY, hyrow, hc⟩)]
          · rw [if_neg (fun hcon => hc hcon.2), if_neg]
            rintro ⟨rr, hr1, hr2, hr3, hr4, hc2⟩
            have hrr : rr = r := by omega
            rw [hrr] at hc2
            exact hc hc2
        · have hpix :
              (if Y = y + r ∧ hitCond (m.ram (m.i + r)) x 0 8 X
               then ! m.vram Y X else m.vram Y X) = m.vram Y X := by
            rw [if_neg (fun hcon => hY hcon.1)]
          rw [hpix]
          by_cases hc : spriteHit m.ram m.i x y (r + 1) n X Y
          · obtain ⟨rr, hr1, hr2, hr3, hr4, hc2⟩ := hc
            rw [if_pos (show spriteHit m.ram m.i x y (r + 1) n X Y from
                ⟨rr, hr1, hr2, hr3, hr4, hc2⟩),
              if_pos (show spriteHit m.ram m.i x y r (n + 1) X Y from
                ⟨rr, by omega, by omega, hr3, hr4, hc2⟩)]
          · rw [if_neg hc, if_neg]
            rintro ⟨rr, hr1, hr2, hr3, hr4, hc2⟩
            have hrr : rr ≠ r := fun he => hY (by rw [hr3, he])
            exact hc ⟨rr, by omega, by omega, hr3, hr4, hc2⟩
      · rw [hm'v j, hram, hi, d4 j]
        have hcoll : spriteColl m.ram
            (m.drawRow x (y + r) (m.ram (m.i + r)) 0 8).1.vram m.i x y (r + 1) n ↔
            spriteColl m.ram m.vram m.i x y (r + 1) n := by
          apply spriteColl_congr
          intro rr X hr1 hr2
          rw [d3 (y + rr) X, if_neg]
          rintro ⟨he, -⟩
          omega
        by_cases hj : j = 15
        · by_cases hc2 : spriteColl m.ram m.vram m.i x y (r + 1) n
          · rw [if_pos ⟨hj, hcoll.mpr hc2⟩]
            obtain ⟨rr, hr1, hr2, hr3, hcc⟩ := hc2
            rw [if_pos (show j = 15 ∧ spriteColl m.ram m.vram m.i x y r (n + 1) from
              ⟨hj, rr, by omega, by omega, hr3, hcc⟩)]
          · rw [if_neg (fun hcon => hc2 (hcoll.mp hcon.2))]
            by_cases hc3 : collCond (m.vram (y + r)) (m.ram (m.i + r)) x 0 8
            · rw [if_pos ⟨hj, hc3⟩,
                if_pos (show j = 15 ∧ spriteColl m.ram m.vram m.i x y r (n + 1) from
                  ⟨hj, r, by omega, le_refl r, hyrow, hc3⟩)]
            · rw [if_neg (fun hcon => hc3 hcon.2), if_neg]
              rintro ⟨-, rr, hr1, hr2, hr3, hcc⟩
              rcases Nat.eq_or_lt_of_le hr2 with he | hlt2
              · rw [← he] at hcc
                exact hc3 hcc
              · exact hc2 ⟨rr, by omega, by omega, hr3, hcc⟩
        · rw [if_neg (fun hcon => hj hcon.1), if_neg (fun hcon => hj hcon.1),
            if_neg (fun hcon => hj hcon.1)]
    · have hge : 32 ≤ y + r := by omega
      obtain ⟨d1, d2⟩ := drawRow_oob x (y + r) (m.ram (m.i + r)) hge 8 m 0
      by_cases hbrk : (m.drawRow x (y + r) (m.ram (m.i + r)) 0 8).2 = true
      · refine ⟨m, ?_, Memory.eqExceptVramV_refl m, fun Y X => ?_, fun j => ?_⟩
        · rw [hstep, if_pos hbrk, d1]
        · rw [if_neg]
          rintro ⟨rr, hr1, hr2, hr3, hr4, -⟩
          omega
        · rw [if_neg]
          rintro ⟨-, rr, hr1, hr2, hr3, -⟩
          omega
      · obtain ⟨m', hm'eq, hm'f, hm'vram, hm'v⟩ := ih m (r + 1) (by omega)
        refine ⟨m', ?_, hm'f, fun Y X => ?_, fun j => ?_⟩
        · rw [hstep, if_neg hbrk, d1]
          exact hm'eq
        · rw [hm'vram Y X]
          by_cases hc : spriteHit m.ram m.i x y (r + 1) n X Y
          · obtain ⟨rr, hr1, hr2, hr3, hr4, hc2⟩ := hc
            rw [if_pos (show spriteHit m.ram m.i x y (r + 1) n X Y from
                ⟨rr, hr1, hr2, hr3, hr4, hc2⟩),
              if_pos (show spriteHit m.ram m.i x y r (n + 1) X Y from
                ⟨rr, by omega, by omega, hr3, hr4, hc2⟩)]
          · rw [if_neg hc, if_neg]
            rintro ⟨rr, hr1, hr2, hr3, hr4, hc2⟩
            have hrr : rr ≠ r := by omega
            exact hc ⟨rr, by omega, by omega, hr3, hr4, hc2⟩
        · rw [hm'v j]
          by_cases hj : j = 15
          · by_cases hc : spriteColl m.ram m.vram m.i x y (r + 1) n
            · obtain ⟨rr, hr1, hr2, hr3, hcc⟩ := hc
              rw [if_pos ⟨hj, rr, hr1, hr2, hr3, hcc⟩,
                if_pos (show j = 15 ∧ spriteColl m.ram m.vram m.i x y r (n + 1) from
                  ⟨hj, rr, by omega, by omega, hr3, hcc⟩)]
            · rw [if_neg (fun hcon => hc hcon.2), if_neg]
              rintro ⟨-, rr, hr1, hr2, hr3, hcc⟩
              have hrr : rr ≠ r := by omega
              exact hc ⟨rr, by omega, by omega, hr3, hcc⟩
          · rw [if_neg (fun hcon => hj hcon.1), if_neg (fun hcon => hj hcon.1)]

/-- C1: executing `DisplayDraw{vx, vy, height}` (with the `height` sprite
row reads inside RAM) always succeeds, reads the sprite rows starting at
the index register, and XOR-draws each set bit `q` of row `rr` at
`(v[vx] mod 64 + q, v[vy] mod 32 + rr)` into the framebuffer; bits past
the right edge and rows past the bottom edge are clipped (never drawn,
never wrapped); every other memory field is untouched; registers other
than the flag register are untouched; and the flag register ends 1 if
some drawn pixel was previously set (it goes set to unset) and 0
otherwise (it is reset at the start of the instruction). -/
theorem execute_displayDraw_spec (c : Chip8) (rnd vx vy height : Nat)
    (hvx : vx < 16) (hvy : vy < 16)
    (hin : c.memory.i + height ≤ 4096) :
    ∃ c', c.execute rnd (.displayDraw vx vy height) = some (c', none) ∧
      c'.config = c.config ∧ c'.state = c.state ∧
      Memory.eqExceptVramV c.memory c'.memory ∧
      (∀ Y X, c'.memory.vram Y X =
        if spriteHit c.memory.ram c.memory.i (c.memory.v vx % 64) (c.memory.v vy % 32)
            0 height X Y
        then ! c.memory.vram Y X else c.memory.vram Y X) ∧
      (∀ j, j ≠ 15 → c'.memory.v j = c.memory.v j) ∧
      (c'.memory.v 15 =
        if spriteColl c.memory.ram c.memory.vram c.memory.i
            (c.memory.v vx % 64) (c.memory.v vy % 32) 0 height
        then 1 else 0) := by
  obtain ⟨m', hsome, hf, hvram, hv⟩ :=
    drawRows_spec (c.memory.v vx % 64) (c.memory.v vy % 32) height
      (c.memory.setV Memory.INDEX_FLAG_REGISTER 0) 0
      (show (c.memory.setV Memory.INDEX_FLAG_REGISTER 0).i + (0 + height) ≤ 4096 by
        show c.memory.i + (0 + height) ≤ 4096
        omega)
  have hexec : c.execute rnd (.displayDraw vx vy height) =
      match (c.memory.setV Memory.INDEX_FLAG_REGISTER 0).drawRows
          (c.memory.v vx % 64) (c.memory.v vy % 32) 0 height with
      | some m2 => some ({ c with memory := m2 }, none)
      | none => none := rfl
  refine ⟨{ c with memory := m' }, ?_, rfl, rfl, ?_, ?_, ?_, ?_⟩
  · rw [hexec, hsome]
  · exact Memory.eqExceptVramV_trans
      (eqExceptVramV_setV c.memory Memory.INDEX_FLAG_REGISTER 0) hf
  · intro Y X
    exact hvram Y X
  · intro j hj
    have h1 := hv j
    rw [if_neg (fun hcon => hj hcon.1)] at h1
    rw [show ({ c with memory := m' } : Chip8).memory.v j = m'.v j from rfl, h1]
    show (c.memory.setV 15 0).v j = c.memory.v j
    rw [setV_apply, if_neg hj]
  · have h1 := hv 15
    by_cases hc : spriteColl c.memory.ram c.memory.vram c.memory.i
        (c.memory.v vx % 64) (c.memory.v vy % 32) 0 height
    · rw [if_pos ⟨rfl, hc⟩] at h1
      rw [show ({ c with memory := m' } : Chip8).memory.v 15 = m'.v 15 from rfl, h1,
        if_pos hc]
    · rw [if_neg (fun hcon => hc hcon.2)] at h1
      rw [show ({ c with memory := m' } : Chip8).memory.v 15 = m'.v 15 from rfl, h1,
        if_neg hc]
      show (c.memory.setV 15 0).v 15 = 0
      rw [setV_apply, if_pos rfl]

/-- The concrete state of the C1 test vector: `registers[4] = 1`,
`registers[6] = 2`, sprite bytes `0b10111111, 0b01001001` at the index
register `0x300`, and exactly the pixels
`(1,2), (2,2), (3,2), (1,3), (2,3), (3,3)` set. -/
def c1DrawState : Chip8 :=
  { Chip8.new Config.default with memory :=
    { (((((((Memory.default.setV 4 1).setV 6 2).setPixel 2 1 true).setPixel 2 2
          true).setPixel 2 3 true).setPixel 3 1 true).setPixel 3 2
          true).setPixel 3 3 true with
      i := 0x300,
      ram := Function.update (Function.update Memory.default.ram 0x300 0b10111111)
        0x301 0b01001001 } }

/-- C1 witness: on the C1 test vector, `DisplayDraw{vx=4, vy=6, height=2}`
draws at `(1 + column, 2 + row)`, leaving row 2 of the framebuffer at
`(1,2)=false, (2,2)=true, (3,2)=false, (4,2)..(8,2)=true` with the flag
register set to 1 (a collision occurred), as computed by the executable
semantics in the final conjunct. -/
theorem execute_displayDraw_spec_witness :
    (4 : Nat) < 16 ∧ (6 : Nat) < 16 ∧
    c1DrawState.memory.i + 2 ≤ 4096 ∧
    (∃ c', c1DrawState.execute 0 (.displayDraw 4 6 2) = some (c', none) ∧
      c'.config = c1DrawState.config ∧ c'.state = c1DrawState.state ∧
      Memory.eqExceptVramV c1DrawState.memory c'.memory ∧
      (∀ Y X, c'.memory.vram Y X =
        if spriteHit c1DrawState.memory.ram c1DrawState.memory.i
            (c1DrawState.memory.v 4 % 64) (c1DrawState.memory.v 6 % 32) 0 2 X Y
        then ! c1DrawState.memory.vram Y X else c1DrawState.memory.vram Y X) ∧
      (∀ j, j ≠ 15 → c'.memory.v j = c1DrawState.memory.v j) ∧
      (c'.memory.v 15 =
        if spriteColl c1DrawState.memory.ram c1DrawState.memory.vram
            c1DrawState.memory.i
            (c1DrawState.memory.v 4 % 64) (c1DrawState.memory.v 6 % 32) 0 2
        then 1 else 0)) ∧
    ((c1DrawState.execute 0 (.displayDraw 4 6 2)).map (fun p =>
      ([p.1.memory.vram 2 1, p.1.memory.vram 2 2, p.1.memory.vram 2 3,
        p.1.memory.vram 2 4, p.1.memory.vram 2 5, p.1.memory.vram 2 6,
        p.1.memory.vram 2 7, p.1.memory.vram 2 8],
       p.1.memory.v 15, p.2.isNone))) =
      some ([false, true, false, true, true, true, true, true], 1, true) :=
  ⟨by decide, by decide, by decide,
   execute_displayDraw_spec c1DrawState 0 4 6 2 (by decide) (by decide) (by decide),
   by decide⟩

end Chip8Emu
